import Mathlib

/-!
Verification of the Hangul phonological engine of the `hangul-fun`
repository.  Characters are modelled as natural-number Unicode code
points, strings as lists of code points.  Every definition below is a
direct shallow embedding of the corresponding Rust function; hex
literals carry the code points that appear as character literals in the
source (the glyph is noted in a nearby comment where it matters).
-/

namespace HangulFun

/-- A natural number is a Unicode scalar value (the values a Rust `char`
can hold): below the surrogate range, or after it and at most 0x10FFFF. -/
def isUnicodeScalarValue (n : Nat) : Prop :=
  n < 0xD800 ∨ (0xE000 ≤ n ∧ n ≤ 0x10FFFF)

instance (n : Nat) : Decidable (isUnicodeScalarValue n) := by
  unfold isUnicodeScalarValue; infer_instance

/-- Model of `char::from_u32` / `char::try_from`: succeeds exactly on
Unicode scalar values. -/
def charFromU32 (n : Nat) : Option Nat :=
  if isUnicodeScalarValue n then some n else none

/-- The `HangulCharClass` enum of `src/hangul.rs`. -/
inductive HangulCharClass where
  | CompatibilityJamo
  | JamoExtendedA
  | JamoExtendedB
  | Jamo
  | Syllables
  | None
deriving DecidableEq

/-- `impl From<char> for HangulCharClass` (src/hangul.rs, lines 11-22):
classification by fixed inclusive code-point ranges, in source order. -/
def HangulCharClass.fromChar (value : Nat) : HangulCharClass :=
  if 0xAC00 ≤ value ∧ value ≤ 0xD7AF then HangulCharClass.Syllables
  else if 0x1100 ≤ value ∧ value ≤ 0x11FF then HangulCharClass.Jamo
  else if 0x3130 ≤ value ∧ value ≤ 0x318F then HangulCharClass.CompatibilityJamo
  else if 0xA960 ≤ value ∧ value ≤ 0xA97F then HangulCharClass.JamoExtendedA
  else if 0xD7B0 ≤ value ∧ value ≤ 0xD7FF then HangulCharClass.JamoExtendedB
  else HangulCharClass.None

/-- The `final_idx` computation of `compose_hangul_jamos_to_syllable`
(src/hangul.rs, lines 68-76): the third `next()` of the iterator; no
third character means index 0, a third character below U+11A7 makes the
`checked_sub` fail. -/
def compose_final_idx (rest2 : List Nat) : Option Nat :=
  match rest2 with
  | [] => some 0
  | final_ch :: _ => if final_ch < 0x11A7 then none else some (final_ch - 0x11A7)

/-- The tail of `compose_hangul_jamos_to_syllable` (src/hangul.rs, lines
78-86): `char::try_from` on the computed code point followed by the
`HangulCharClass::Syllables` check. -/
def compose_check (codepoint : Nat) : Option Nat :=
  match charFromU32 codepoint with
  | none => none
  | some syllable =>
    if HangulCharClass.fromChar syllable = HangulCharClass.Syllables then some syllable
    else none

/-- `compose_hangul_jamos_to_syllable` (src/hangul.rs, lines 51-87).
The Rust function pulls at most three characters from its iterator;
`checked_sub` returning `None` is modelled by the `<` tests.  The
catch-all arm covers the empty and one-character sequences, for which
the source returns `None` from its first or second early return (for a
one-character sequence the source checks `initial_ch` first, but the
result is `None` no matter how that check goes, since the second
`next()` has nothing to yield). -/
def compose_hangul_jamos_to_syllable (chars : List Nat) : Option Nat :=
  match chars with
  | initial_ch :: medial_ch :: rest2 =>
    if initial_ch < 0x1100 then none
    else if medial_ch < 0x1161 then none
    else
      match compose_final_idx rest2 with
      | none => none
      | some final_idx =>
        compose_check ((initial_ch - 0x1100) * 588 + (medial_ch - 0x1161) * 28
          + final_idx + 0xAC00)
  | _ => none

/-- `decompose_hangul_syllable_to_jamos` (src/hangul.rs, lines 94-125).
The two `char::from_u32(..).unwrap()` calls for the initial and medial
characters are modelled by using the computed code points directly; the
theorem for C8 proves the unwraps (and the two `assert_eq!` checks on
`HangulCharClass`) can never fail.  The final character goes through
`char::from_u32` without an unwrap, exactly as in the source. -/
def decompose_hangul_syllable_to_jamos (ch : Nat) : Option (Nat × Nat × Option Nat) :=
  if HangulCharClass.fromChar ch ≠ HangulCharClass.Syllables then none
  else
    let base_codepoint := ch - 0xAC00
    let initial_codepoint_idx := base_codepoint / 588
    let medial_codepoint_idx := (base_codepoint - initial_codepoint_idx * 588) / 28
    let final_codepoint_idx :=
      base_codepoint - initial_codepoint_idx * 588 - medial_codepoint_idx * 28
    let initial_codepoint := 0x1100 + initial_codepoint_idx
    let medial_codepoint := 0x1161 + medial_codepoint_idx
    let final_codepoint := 0x11A7 + final_codepoint_idx
    some (initial_codepoint, medial_codepoint,
      if final_codepoint_idx = 0 then none else charFromU32 final_codepoint)

/-- The decomposed triple as the 2- or 3-character sequence that
`hangul_syllable_to_jamos` (src/hangul.rs, lines 215-225) builds. -/
def tripleToList : Nat × Nat × Option Nat → List Nat
  | (i, m, none) => [i, m]
  | (i, m, some f) => [i, m, f]

/-- `hangul_syllable_to_jamos` (src/hangul.rs, lines 215-225). -/
def hangul_syllable_to_jamos (ch : Nat) : Option (List Nat) :=
  match decompose_hangul_syllable_to_jamos ch with
  | some t => some (tripleToList t)
  | none => none

/-- `decompose_all_hangul_syllables` (src/hangul.rs, lines 229-242). -/
def decompose_all_hangul_syllables : List Nat → List Nat
  | [] => []
  | ch :: rest =>
    (match hangul_syllable_to_jamos ch with
     | some jamos => jamos
     | none => [ch]) ++ decompose_all_hangul_syllables rest

/-- `hangul_jamo_to_compat` (src/hangul.rs, lines 145-204): maps a Hangul
Jamo to its Hangul Compatibility Jamo equivalent. -/
def hangul_jamo_to_compat (ch : Nat) : Option Nat :=
  -- Consonants
  if ch = 0x1100 ∨ ch = 0x11A8 then some 0x3131      -- ᄀ | ᆨ => ㄱ
  else if ch = 0x1101 ∨ ch = 0x11A9 then some 0x3132 -- ᄁ | ᆩ => ㄲ
  else if ch = 0x11AA then some 0x3133               -- ᆪ => ㄳ
  else if ch = 0x1102 ∨ ch = 0x11AB then some 0x3134 -- ᄂ | ᆫ => ㄴ
  else if ch = 0x11AC then some 0x3135               -- ᆬ => ㄵ
  else if ch = 0x11AD then some 0x3136               -- ᆭ => ㄶ
  else if ch = 0x1103 ∨ ch = 0x11AE then some 0x3137 -- ᄃ | ᆮ => ㄷ
  else if ch = 0x1104 then some 0x3138               -- ᄄ => ㄸ
  else if ch = 0x1105 ∨ ch = 0x11AF then some 0x3139 -- ᄅ | ᆯ => ㄹ
  else if ch = 0x11B0 then some 0x313A               -- ᆰ => ㄺ
  else if ch = 0x11B1 then some 0x313B               -- ᆱ => ㄻ
  else if ch = 0x11B2 then some 0x313C               -- ᆲ => ㄼ
  else if ch = 0x11B3 then some 0x313D               -- ᆳ => ㄽ
  else if ch = 0x11B4 then some 0x313E               -- ᆴ => ㄾ
  else if ch = 0x11B5 then some 0x313F               -- ᆵ => ㄿ
  else if ch = 0x11B6 then some 0x3140               -- ᆶ => ㅀ
  else if ch = 0x1106 ∨ ch = 0x11B7 then some 0x3141 -- ᄆ | ᆷ => ㅁ
  else if ch = 0x1107 ∨ ch = 0x11B8 then some 0x3142 -- ᄇ | ᆸ => ㅂ
  else if ch = 0x1108 then some 0x3143               -- ᄈ => ㅃ
  else if ch = 0x11B9 then some 0x3144               -- ᆹ => ㅄ
  else if ch = 0x1109 ∨ ch = 0x11BA then some 0x3145 -- ᄉ | ᆺ => ㅅ
  else if ch = 0x110A ∨ ch = 0x11BB then some 0x3146 -- ᄊ | ᆻ => ㅆ
  else if ch = 0x110B ∨ ch = 0x11BC then some 0x3147 -- ᄋ | ᆼ => ㅇ
  else if ch = 0x110C ∨ ch = 0x11BD then some 0x3148 -- ᄌ | ᆽ => ㅈ
  else if ch = 0x110D then some 0x3149               -- ᄍ => ㅉ
  else if ch = 0x110E ∨ ch = 0x11BE then some 0x314A -- ᄎ | ᆾ => ㅊ
  else if ch = 0x110F ∨ ch = 0x11BF then some 0x314B -- ᄏ | ᆿ => ㅋ
  else if ch = 0x1110 ∨ ch = 0x11C0 then some 0x314C -- ᄐ | ᇀ => ㅌ
  else if ch = 0x1111 ∨ ch = 0x11C1 then some 0x314D -- ᄑ | ᇁ => ㅍ
  else if ch = 0x1112 ∨ ch = 0x11C2 then some 0x314E -- ᄒ | ᇂ => ㅎ
  -- Vowels: ᅡ..ᅵ map one by one onto ㅏ..ㅣ
  else if ch = 0x1161 then some 0x314F
  else if ch = 0x1162 then some 0x3150
  else if ch = 0x1163 then some 0x3151
  else if ch = 0x1164 then some 0x3152
  else if ch = 0x1165 then some 0x3153
  else if ch = 0x1166 then some 0x3154
  else if ch = 0x1167 then some 0x3155
  else if ch = 0x1168 then some 0x3156
  else if ch = 0x1169 then some 0x3157
  else if ch = 0x116A then some 0x3158
  else if ch = 0x116B then some 0x3159
  else if ch = 0x116C then some 0x315A
  else if ch = 0x116D then some 0x315B
  else if ch = 0x116E then some 0x315C
  else if ch = 0x116F then some 0x315D
  else if ch = 0x1170 then some 0x315E
  else if ch = 0x1171 then some 0x315F
  else if ch = 0x1172 then some 0x3160
  else if ch = 0x1173 then some 0x3161
  else if ch = 0x1174 then some 0x3162
  else if ch = 0x1175 then some 0x3163
  else none

/-! ### The modern-jamo classifier and the lookahead stream (src/jamo_stream.rs) -/

/-- The `ModernJamo` enum of src/jamo_stream.rs. -/
inductive ModernJamo where
  | InitialConsonant (ch : Nat)
  | Vowel (ch : Nat)
  | FinalConsonant (ch : Nat)
deriving DecidableEq

/-- `ModernJamo::try_from_char` (src/jamo_stream.rs, lines 117-124):
the three inclusive ranges are ᄀ..ᄒ, ᅡ..ᅵ and ᆨ..ᇂ. -/
def ModernJamo.try_from_char (char : Nat) : Option ModernJamo :=
  if 0x1100 ≤ char ∧ char ≤ 0x1112 then some (ModernJamo.InitialConsonant char)
  else if 0x1161 ≤ char ∧ char ≤ 0x1175 then some (ModernJamo.Vowel char)
  else if 0x11A8 ≤ char ∧ char ≤ 0x11C2 then some (ModernJamo.FinalConsonant char)
  else none

/-- `ModernJamo::is_initial_consonant` (src/jamo_stream.rs, lines 126-131). -/
def ModernJamo.is_initial_consonant (char : Nat) : Bool :=
  match ModernJamo.try_from_char char with
  | some (ModernJamo.InitialConsonant _) => true
  | _ => false

/-- `impl Into<char> for ModernJamo` (src/jamo_stream.rs, lines 134-142). -/
def ModernJamo.into_char : ModernJamo → Nat
  | ModernJamo.InitialConsonant ch => ch
  | ModernJamo.Vowel ch => ch
  | ModernJamo.FinalConsonant ch => ch

/-- The `JamoInStream` record of src/jamo_stream.rs. -/
structure JamoInStream where
  curr : Nat
  prev : Option Nat
  next : Option Nat
  next_syllable : Option Nat
deriving DecidableEq

/-- The `JamoStream` state of src/jamo_stream.rs. -/
structure JamoStream where
  jamos : List Nat
  syllable_indices : List Nat
  index : Nat
  syllable_index : Nat
deriving DecidableEq

/-- The syllable-index scan of `JamoStream::from_jamos`
(src/jamo_stream.rs, lines 33-38): the positions, counted from `start`,
of the initial consonants of the list. -/
def syllableIndicesFrom (start : Nat) : List Nat → List Nat
  | [] => []
  | jamo :: rest =>
    if ModernJamo.is_initial_consonant jamo then
      start :: syllableIndicesFrom (start + 1) rest
    else syllableIndicesFrom (start + 1) rest

/-- `JamoStream::from_jamos` (src/jamo_stream.rs, lines 31-46). -/
def JamoStream.from_jamos (value : List Nat) : JamoStream :=
  { jamos := value
    syllable_indices := syllableIndicesFrom 0 value
    index := 0
    syllable_index := 0 }

/-- `JamoStream::seek_to_syllable` (src/jamo_stream.rs, lines 48-52).
Note that only `index` is updated; `syllable_index` is left alone. -/
def JamoStream.seek_to_syllable (s : JamoStream) (index : Nat) : JamoStream :=
  match s.syllable_indices[index]? with
  | some jamo_index => { s with index := jamo_index }
  | none => s

/-- `JamoStream::get_syllable_at` (src/jamo_stream.rs, lines 54-63). -/
def JamoStream.get_syllable_at (s : JamoStream) (index : Nat) : Option Nat :=
  match s.syllable_indices[index]? with
  | none => none
  | some jamo_start_index =>
    compose_hangul_jamos_to_syllable
      (match s.syllable_indices[index + 1]? with
       | some jamo_end_index =>
         (s.jamos.drop jamo_start_index).take (jamo_end_index - jamo_start_index)
       | none => s.jamos.drop jamo_start_index)

/-- `Iterator::next for JamoStream` (src/jamo_stream.rs, lines 66-99):
returns the yielded item together with the updated stream state. -/
def JamoStream.next (s : JamoStream) : Option (JamoInStream × JamoStream) :=
  match s.jamos[s.index]? with
  | none => none
  | some curr =>
    let prev := if s.index = 0 then none else s.jamos[s.index - 1]?
    match s.jamos[s.index + 1]? with
    | some nxt =>
      let next_syllable := s.get_syllable_at (s.syllable_index + 1)
      let s' :=
        match ModernJamo.try_from_char nxt with
        | some (ModernJamo.InitialConsonant _) =>
          { s with index := s.index + 1, syllable_index := s.syllable_index + 1 }
        | _ => { s with index := s.index + 1 }
      some (⟨curr, prev, some nxt, next_syllable⟩, s')
    | none =>
      some (⟨curr, prev, none, none⟩,
        { s with index := s.index + 1, syllable_index := s.syllable_index + 1 })

/-- Iterating a `JamoStream` `n` times by `Iterator::next`. -/
def JamoStream.advance : Nat → JamoStream → JamoStream
  | 0, s => s
  | k + 1, s =>
    match s.next with
    | some (_, s') => JamoStream.advance k s'
    | none => s

/-! ### The pronunciation-rule pipeline (src/pronunciation.rs) -/

/-- The `RuleContext` record of src/pronunciation.rs (lines 69-80). -/
structure RuleContext where
  final_consonant : ModernJamo
  next_initial_consonant : Option ModernJamo
deriving DecidableEq

/-- The `RuleResult` enum of src/pronunciation.rs (lines 82-98). -/
inductive RuleResult where
  | NoChange
  | ChangeNextInitial (j : ModernJamo)
  | ChangeFinal (j : ModernJamo)
  | ChangeBoth (f : ModernJamo) (j : ModernJamo)
  | RemoveFinal
  | RemoveFinalAndChangeNextInitial (j : ModernJamo)
deriving DecidableEq

/-- `reinforcement_rule` (src/pronunciation.rs, lines 106-132).  The
tense-inducing final consonants are ᆸ ᆨ ᆿ ᆮ ᆺ ᆽ ᆾ ᇀ; the strengthened
counterparts are ᄀ→ᄁ, ᄃ→ᄄ, ᄇ→ᄈ, ᄉ→ᄊ, ᄌ→ᄍ; the special case is
final ᇂ before initial ᄉ. -/
def reinforcement_rule (ctx : RuleContext) : RuleResult :=
  match ctx.final_consonant, ctx.next_initial_consonant with
  | ModernJamo.FinalConsonant f, some (ModernJamo.InitialConsonant initial) =>
    if f = 0x11B8 ∨ f = 0x11A8 ∨ f = 0x11BF ∨ f = 0x11AE ∨ f = 0x11BA ∨ f = 0x11BD
        ∨ f = 0x11BE ∨ f = 0x11C0 then
      if initial = 0x1100 then
        RuleResult.ChangeNextInitial (ModernJamo.InitialConsonant 0x1101)
      else if initial = 0x1103 then
        RuleResult.ChangeNextInitial (ModernJamo.InitialConsonant 0x1104)
      else if initial = 0x1107 then
        RuleResult.ChangeNextInitial (ModernJamo.InitialConsonant 0x1108)
      else if initial = 0x1109 then
        RuleResult.ChangeNextInitial (ModernJamo.InitialConsonant 0x110A)
      else if initial = 0x110C then
        RuleResult.ChangeNextInitial (ModernJamo.InitialConsonant 0x110D)
      else RuleResult.NoChange
    else if f = 0x11C2 ∧ initial = 0x1109 then
      RuleResult.RemoveFinalAndChangeNextInitial (ModernJamo.InitialConsonant 0x110A)
    else RuleResult.NoChange
  | _, _ => RuleResult.NoChange

/-- `resyllabification_rule` (src/pronunciation.rs, lines 137-163): fires
only when the next initial consonant is the silent placeholder ᄋ. -/
def resyllabification_rule (ctx : RuleContext) : RuleResult :=
  match ctx.final_consonant, ctx.next_initial_consonant with
  | ModernJamo.FinalConsonant ch, some (ModernJamo.InitialConsonant 0x110B) =>
    if ch = 0x11A8 then  -- ᆨ => ᄀ
      RuleResult.RemoveFinalAndChangeNextInitial (ModernJamo.InitialConsonant 0x1100)
    else if ch = 0x11A9 then  -- ᆩ => ᄁ
      RuleResult.RemoveFinalAndChangeNextInitial (ModernJamo.InitialConsonant 0x1101)
    else if ch = 0x11AB then  -- ᆫ => ᄂ
      RuleResult.RemoveFinalAndChangeNextInitial (ModernJamo.InitialConsonant 0x1102)
    else if ch = 0x11AE then  -- ᆮ => ᄃ
      RuleResult.RemoveFinalAndChangeNextInitial (ModernJamo.InitialConsonant 0x1103)
    else if ch = 0x11AF then  -- ᆯ => ᄅ
      RuleResult.RemoveFinalAndChangeNextInitial (ModernJamo.InitialConsonant 0x1105)
    else if ch = 0x11B7 then  -- ᆷ => ᄆ
      RuleResult.RemoveFinalAndChangeNextInitial (ModernJamo.InitialConsonant 0x1106)
    else if ch = 0x11B8 then  -- ᆸ => ᄇ
      RuleResult.RemoveFinalAndChangeNextInitial (ModernJamo.InitialConsonant 0x1107)
    else if ch = 0x11BA then  -- ᆺ => ᄉ
      RuleResult.RemoveFinalAndChangeNextInitial (ModernJamo.InitialConsonant 0x1109)
    else if ch = 0x11BB then  -- ᆻ => ᄊ
      RuleResult.RemoveFinalAndChangeNextInitial (ModernJamo.InitialConsonant 0x110A)
    else if ch = 0x11BC then  -- ᆼ never relocates
      RuleResult.NoChange
    else if ch = 0x11BD then  -- ᆽ => ᄌ
      RuleResult.RemoveFinalAndChangeNextInitial (ModernJamo.InitialConsonant 0x110C)
    else if ch = 0x11BE then  -- ᆾ => ᄎ
      RuleResult.RemoveFinalAndChangeNextInitial (ModernJamo.InitialConsonant 0x110E)
    else if ch = 0x11BF then  -- ᆿ => ᄏ
      RuleResult.RemoveFinalAndChangeNextInitial (ModernJamo.InitialConsonant 0x110F)
    else if ch = 0x11C0 then  -- ᇀ => ᄐ
      RuleResult.RemoveFinalAndChangeNextInitial (ModernJamo.InitialConsonant 0x1110)
    else if ch = 0x11C1 then  -- ᇁ => ᄑ
      RuleResult.RemoveFinalAndChangeNextInitial (ModernJamo.InitialConsonant 0x1111)
    else if ch = 0x11C2 then  -- ᇂ is simply dropped
      RuleResult.RemoveFinal
    else RuleResult.NoChange
  | _, _ => RuleResult.NoChange

/-- The big match of `compound_consonant_rule` (src/pronunciation.rs,
lines 173-262), producing `Option (new final, new next initial)`; `none`
models the catch-all arm that returns `NoChange` directly.  Codepoints:
clusters ᆪ ᆬ ᆭ ᆰ ᆱ ᆲ ᆳ ᆴ ᆵ ᆶ ᆹ; the silent placeholder ᄋ is 0x110B. -/
def compound_consonant_table (fc : ModernJamo) (next orig : Option ModernJamo) :
    Option (ModernJamo × Option ModernJamo) :=
  match fc, next with
  -- Rules for ㄳ (ᆪ)
  | ModernJamo.FinalConsonant 0x11AA, some (ModernJamo.InitialConsonant 0x110B) =>
    some (ModernJamo.FinalConsonant 0x11A8, some (ModernJamo.InitialConsonant 0x1109))
  | ModernJamo.FinalConsonant 0x11AA, _ =>
    some (ModernJamo.FinalConsonant 0x11A8, orig)
  -- Rules for ㄵ (ᆬ)
  | ModernJamo.FinalConsonant 0x11AC, some (ModernJamo.InitialConsonant 0x110B) =>
    some (ModernJamo.FinalConsonant 0x11AB, some (ModernJamo.InitialConsonant 0x110C))
  | ModernJamo.FinalConsonant 0x11AC, _ =>
    some (ModernJamo.FinalConsonant 0x11AB, orig)
  -- Rules for ㄶ (ᆭ)
  | ModernJamo.FinalConsonant 0x11AD, some (ModernJamo.InitialConsonant 0x1100) =>
    some (ModernJamo.FinalConsonant 0x11AB, some (ModernJamo.InitialConsonant 0x110F))
  | ModernJamo.FinalConsonant 0x11AD, some (ModernJamo.InitialConsonant 0x1103) =>
    some (ModernJamo.FinalConsonant 0x11AB, some (ModernJamo.InitialConsonant 0x1110))
  | ModernJamo.FinalConsonant 0x11AD, some (ModernJamo.InitialConsonant 0x110C) =>
    some (ModernJamo.FinalConsonant 0x11AB, some (ModernJamo.InitialConsonant 0x110E))
  | ModernJamo.FinalConsonant 0x11AD, _ =>
    some (ModernJamo.FinalConsonant 0x11AB, orig)
  -- Rules for ㄺ (ᆰ)
  | ModernJamo.FinalConsonant 0x11B0, some (ModernJamo.InitialConsonant 0x110B) =>
    some (ModernJamo.FinalConsonant 0x11AF, some (ModernJamo.InitialConsonant 0x1100))
  | ModernJamo.FinalConsonant 0x11B0, some (ModernJamo.InitialConsonant 0x1100) =>
    some (ModernJamo.FinalConsonant 0x11AF, some (ModernJamo.InitialConsonant 0x1101))
  | ModernJamo.FinalConsonant 0x11B0, _ =>
    some (ModernJamo.FinalConsonant 0x11A8, orig)
  -- Rules for ㄻ (ᆱ)
  | ModernJamo.FinalConsonant 0x11B1, some (ModernJamo.InitialConsonant 0x110B) =>
    some (ModernJamo.FinalConsonant 0x11AF, some (ModernJamo.InitialConsonant 0x1106))
  | ModernJamo.FinalConsonant 0x11B1, _ =>
    some (ModernJamo.FinalConsonant 0x11B7, orig)
  -- Rules for ㄼ (ᆲ)
  | ModernJamo.FinalConsonant 0x11B2, some (ModernJamo.InitialConsonant 0x110B) =>
    some (ModernJamo.FinalConsonant 0x11AF, some (ModernJamo.InitialConsonant 0x1107))
  | ModernJamo.FinalConsonant 0x11B2, some (ModernJamo.InitialConsonant 0x1103) =>
    some (ModernJamo.FinalConsonant 0x11B8, some (ModernJamo.InitialConsonant 0x1103))
  | ModernJamo.FinalConsonant 0x11B2, _ =>
    some (ModernJamo.FinalConsonant 0x11AF, orig)
  -- Rules for ㄾ (ᆴ)
  | ModernJamo.FinalConsonant 0x11B4, some (ModernJamo.InitialConsonant 0x110B) =>
    some (ModernJamo.FinalConsonant 0x11AF, some (ModernJamo.InitialConsonant 0x1110))
  | ModernJamo.FinalConsonant 0x11B4, _ =>
    some (ModernJamo.FinalConsonant 0x11AF, orig)
  -- Rules for ㄽ (ᆳ): the source promotes the tensed ᄊ here
  | ModernJamo.FinalConsonant 0x11B3, some (ModernJamo.InitialConsonant 0x110B) =>
    some (ModernJamo.FinalConsonant 0x11AF, some (ModernJamo.InitialConsonant 0x110A))
  | ModernJamo.FinalConsonant 0x11B3, _ =>
    some (ModernJamo.FinalConsonant 0x11AF, orig)
  -- Rules for ㄿ (ᆵ)
  | ModernJamo.FinalConsonant 0x11B5, some (ModernJamo.InitialConsonant 0x110B) =>
    some (ModernJamo.FinalConsonant 0x11AF, some (ModernJamo.InitialConsonant 0x1111))
  | ModernJamo.FinalConsonant 0x11B5, _ =>
    some (ModernJamo.FinalConsonant 0x11B8, orig)
  -- Rules for ㅀ (ᆶ)
  | ModernJamo.FinalConsonant 0x11B6, some (ModernJamo.InitialConsonant 0x1100) =>
    some (ModernJamo.FinalConsonant 0x11AF, some (ModernJamo.InitialConsonant 0x110F))
  | ModernJamo.FinalConsonant 0x11B6, some (ModernJamo.InitialConsonant 0x1103) =>
    some (ModernJamo.FinalConsonant 0x11AF, some (ModernJamo.InitialConsonant 0x1110))
  | ModernJamo.FinalConsonant 0x11B6, some (ModernJamo.InitialConsonant 0x110C) =>
    some (ModernJamo.FinalConsonant 0x11AF, some (ModernJamo.InitialConsonant 0x110E))
  | ModernJamo.FinalConsonant 0x11B6, _ =>
    some (ModernJamo.FinalConsonant 0x11AF, orig)
  -- Rules for ㅄ (ᆹ)
  | ModernJamo.FinalConsonant 0x11B9, some (ModernJamo.InitialConsonant 0x110B) =>
    some (ModernJamo.FinalConsonant 0x11B8, some (ModernJamo.InitialConsonant 0x1109))
  | ModernJamo.FinalConsonant 0x11B9, _ =>
    some (ModernJamo.FinalConsonant 0x11B8, orig)
  | _, _ => none

/-- `compound_consonant_rule` (src/pronunciation.rs, lines 171-275),
including the trailing conversion of the `(new final, new next initial)`
pair to a `RuleResult` (lines 264-274). -/
def compound_consonant_rule (ctx : RuleContext) : RuleResult :=
  let orig_next_initial := ctx.next_initial_consonant
  match compound_consonant_table ctx.final_consonant ctx.next_initial_consonant
      orig_next_initial with
  | none => RuleResult.NoChange
  | some (new_final, new_next_initial) =>
    if new_next_initial = orig_next_initial then RuleResult.ChangeFinal new_final
    else
      match new_next_initial with
      | some j => RuleResult.ChangeBoth new_final j
      | none => RuleResult.ChangeFinal new_final

/-- `PRONUNCIATION_RULES` (src/pronunciation.rs, lines 279-283):
the rules in the order they are applied. -/
def PRONUNCIATION_RULES : List (RuleContext → RuleResult) :=
  [compound_consonant_rule, resyllabification_rule, reinforcement_rule]

/-- The inner rule loop of `apply_pronunciation_rules_to_jamos`
(src/pronunciation.rs, lines 308-333): folds the rules over the mutable
context, short-circuiting on the two `RemoveFinal*` results; returns the
final `keep_final_consonant` flag and context. -/
def runRules : List (RuleContext → RuleResult) → RuleContext → Bool × RuleContext
  | [], ctx => (true, ctx)
  | rule :: rules, ctx =>
    match rule ctx with
    | RuleResult.NoChange => runRules rules ctx
    | RuleResult.ChangeNextInitial j => runRules rules { ctx with next_initial_consonant := some j }
    | RuleResult.ChangeFinal j => runRules rules { ctx with final_consonant := j }
    | RuleResult.ChangeBoth f j =>
      runRules rules { final_consonant := f, next_initial_consonant := some j }
    | RuleResult.RemoveFinal => (false, ctx)
    | RuleResult.RemoveFinalAndChangeNextInitial j =>
      (false, { ctx with next_initial_consonant := some j })

/-- The loop of `apply_pronunciation_rules_to_jamos` (src/pronunciation.rs,
lines 285-348).  The `JamoStream` iteration visits every character of the
input in order, with `jamo.curr` the character and `jamo.next` its
successor, so the loop is modelled by direct recursion on the list; the
`Bool` argument is the `skip_next_initial_consonant` flag. -/
def applyRulesLoop : Bool → List Nat → List Nat
  | _, [] => []
  | skip, ch :: rest =>
    match ModernJamo.try_from_char ch with
    | some (ModernJamo.InitialConsonant c) =>
      if skip then applyRulesLoop false rest
      else c :: applyRulesLoop false rest
    | some (ModernJamo.Vowel c) => c :: applyRulesLoop skip rest
    | some (ModernJamo.FinalConsonant c) =>
      let ctx0 : RuleContext :=
        { final_consonant := ModernJamo.FinalConsonant c
          next_initial_consonant := rest.head?.bind ModernJamo.try_from_char }
      match runRules PRONUNCIATION_RULES ctx0 with
      | (keep_final_consonant, ctx) =>
        (if keep_final_consonant then [ctx.final_consonant.into_char] else []) ++
        match ctx.next_initial_consonant with
        | some j => j.into_char :: applyRulesLoop true rest
        | none => applyRulesLoop skip rest
    | none => ch :: applyRulesLoop skip rest

/-- `apply_pronunciation_rules_to_jamos` (src/pronunciation.rs, lines
285-348): the loop starting with the skip flag cleared. -/
def apply_pronunciation_rules_to_jamos (value : List Nat) : List Nat :=
  applyRulesLoop false value

/-! ### The romanizer (src/romanize.rs).  The Latin fragments are strings
in the source; they are modelled as lists of ASCII code points, noted in
the comments. -/

/-- `get_final_with_no_next_vowel` (src/romanize.rs, lines 2-34). -/
def get_final_with_no_next_vowel (ch : Nat) : Option (List Nat) :=
  if ch = 0x11A8 then some [0x6B]              -- ᆨ => k
  else if ch = 0x11A9 then some [0x6B]         -- ᆩ => k
  else if ch = 0x11AA then some [0x6B]         -- ᆪ => k
  else if ch = 0x11AB then some [0x6E]         -- ᆫ => n
  else if ch = 0x11AC then some [0x6E]         -- ᆬ => n
  else if ch = 0x11AD then some [0x6E]         -- ᆭ => n
  else if ch = 0x11AE then some [0x74]         -- ᆮ => t
  else if ch = 0x11AF then some [0x6C]         -- ᆯ => l
  else if ch = 0x11B0 then some [0x6B, 0x3F]   -- ᆰ => k?
  else if ch = 0x11B1 then some [0x6D]         -- ᆱ => m
  else if ch = 0x11B2 then some [0x6C, 0x3F]   -- ᆲ => l?
  else if ch = 0x11B3 then some [0x6C]         -- ᆳ => l
  else if ch = 0x11B4 then some [0x6C]         -- ᆴ => l
  else if ch = 0x11B5 then some [0x70]         -- ᆵ => p
  else if ch = 0x11B6 then some [0x6C]         -- ᆶ => l
  else if ch = 0x11B7 then some [0x6D]         -- ᆷ => m
  else if ch = 0x11B8 then some [0x70]         -- ᆸ => p
  else if ch = 0x11B9 then some [0x70]         -- ᆹ => p
  else if ch = 0x11BA then some [0x74]         -- ᆺ => t
  else if ch = 0x11BB then some [0x74]         -- ᆻ => t
  else if ch = 0x11BC then some [0x6E, 0x67]   -- ᆼ => ng
  else if ch = 0x11BD then some [0x74]         -- ᆽ => t
  else if ch = 0x11BE then some [0x74]         -- ᆾ => t
  else if ch = 0x11BF then some [0x6B]         -- ᆿ => k
  else if ch = 0x11C0 then some [0x74]         -- ᇀ => t
  else if ch = 0x11C1 then some [0x70]         -- ᇁ => p
  else if ch = 0x11C2 then some [0x74]         -- ᇂ => t
  else none

/-- `get_final_with_next_vowel` (src/romanize.rs, lines 37-69). -/
def get_final_with_next_vowel (ch : Nat) : Option (List Nat) :=
  if ch = 0x11A8 then some [0x67]              -- ᆨ => g
  else if ch = 0x11A9 then some [0x6B, 0x6B]   -- ᆩ => kk
  else if ch = 0x11AA then some [0x67, 0x73]   -- ᆪ => gs
  else if ch = 0x11AB then some [0x6E]         -- ᆫ => n
  else if ch = 0x11AC then some [0x6E, 0x6A]   -- ᆬ => nj
  else if ch = 0x11AD then some [0x6E, 0x68]   -- ᆭ => nh
  else if ch = 0x11AE then some [0x64]         -- ᆮ => d
  else if ch = 0x11AF then some [0x6C]         -- ᆯ => l
  else if ch = 0x11B0 then some [0x6C, 0x67]   -- ᆰ => lg
  else if ch = 0x11B1 then some [0x6C, 0x6D]   -- ᆱ => lm
  else if ch = 0x11B2 then some [0x6C, 0x62]   -- ᆲ => lb
  else if ch = 0x11B3 then some [0x6C, 0x73]   -- ᆳ => ls
  else if ch = 0x11B4 then some [0x6C, 0x74]   -- ᆴ => lt
  else if ch = 0x11B5 then some [0x6C, 0x70]   -- ᆵ => lp
  else if ch = 0x11B6 then some [0x6C, 0x68]   -- ᆶ => lh
  else if ch = 0x11B7 then some [0x6D]         -- ᆷ => m
  else if ch = 0x11B8 then some [0x62]         -- ᆸ => b
  else if ch = 0x11B9 then some [0x62, 0x73]   -- ᆹ => bs
  else if ch = 0x11BA then some [0x73]         -- ᆺ => s
  else if ch = 0x11BB then some [0x73, 0x73]   -- ᆻ => ss
  else if ch = 0x11BC then some [0x6E, 0x67]   -- ᆼ => ng
  else if ch = 0x11BD then some [0x6A]         -- ᆽ => j
  else if ch = 0x11BE then some [0x63, 0x68]   -- ᆾ => ch
  else if ch = 0x11BF then some [0x6B]         -- ᆿ => k
  else if ch = 0x11C0 then some [0x74]         -- ᇀ => t
  else if ch = 0x11C1 then some [0x70]         -- ᇁ => p
  else if ch = 0x11C2 then some [0x68]         -- ᇂ => h
  else none

/-- `get_romanized_jamo` (src/romanize.rs, lines 112-166): fixed
fragments for the initial consonants and vowels, and the two
context-dependent final-consonant tables in the catch-all arm. -/
def get_romanized_jamo (ch : Nat) (is_next_vowel : Bool) : Option (List Nat) :=
  -- Initial
  if ch = 0x1100 then some [0x67]              -- ᄀ => g
  else if ch = 0x1101 then some [0x6B, 0x6B]   -- ᄁ => kk
  else if ch = 0x1102 then some [0x6E]         -- ᄂ => n
  else if ch = 0x1103 then some [0x64]         -- ᄃ => d
  else if ch = 0x1104 then some [0x74, 0x74]   -- ᄄ => tt
  else if ch = 0x1105 then some [0x72]         -- ᄅ => r
  else if ch = 0x1106 then some [0x6D]         -- ᄆ => m
  else if ch = 0x1107 then some [0x62]         -- ᄇ => b
  else if ch = 0x1108 then some [0x70, 0x70]   -- ᄈ => pp
  else if ch = 0x1109 then some [0x73]         -- ᄉ => s
  else if ch = 0x110A then some [0x73, 0x73]   -- ᄊ => ss
  else if ch = 0x110B then some []             -- ᄋ => silent
  else if ch = 0x110C then some [0x6A]         -- ᄌ => j
  else if ch = 0x110D then some [0x6A, 0x6A]   -- ᄍ => jj
  else if ch = 0x110E then some [0x63, 0x68]   -- ᄎ => ch
  else if ch = 0x110F then some [0x6B]         -- ᄏ => k
  else if ch = 0x1110 then some [0x74]         -- ᄐ => t
  else if ch = 0x1111 then some [0x70]         -- ᄑ => p
  else if ch = 0x1112 then some [0x68]         -- ᄒ => h
  -- Medial (vowel)
  else if ch = 0x1161 then some [0x61]                 -- ᅡ => a
  else if ch = 0x1162 then some [0x61, 0x65]           -- ᅢ => ae
  else if ch = 0x1163 then some [0x79, 0x61]           -- ᅣ => ya
  else if ch = 0x1164 then some [0x79, 0x61, 0x65]     -- ᅤ => yae
  else if ch = 0x1165 then some [0x65, 0x6F]           -- ᅥ => eo
  else if ch = 0x1166 then some [0x65]                 -- ᅦ => e
  else if ch = 0x1167 then some [0x79, 0x65, 0x6F]     -- ᅧ => yeo
  else if ch = 0x1168 then some [0x79, 0x65]           -- ᅨ => ye
  else if ch = 0x1169 then some [0x6F]                 -- ᅩ => o
  else if ch = 0x116A then some [0x77, 0x61]           -- ᅪ => wa
  else if ch = 0x116B then some [0x77, 0x61, 0x65]     -- ᅫ => wae
  else if ch = 0x116C then some [0x6F, 0x65]           -- ᅬ => oe
  else if ch = 0x116D then some [0x79, 0x6F]           -- ᅭ => yo
  else if ch = 0x116E then some [0x75]                 -- ᅮ => u
  else if ch = 0x116F then some [0x77, 0x6F]           -- ᅯ => wo
  else if ch = 0x1170 then some [0x77, 0x65]           -- ᅰ => we
  else if ch = 0x1171 then some [0x77, 0x69]           -- ᅱ => wi
  else if ch = 0x1172 then some [0x79, 0x75]           -- ᅲ => yu
  else if ch = 0x1173 then some [0x65, 0x75]           -- ᅳ => eu
  else if ch = 0x1174 then some [0x75, 0x69]           -- ᅴ => ui
  else if ch = 0x1175 then some [0x69]                 -- ᅵ => i
  else if is_next_vowel then get_final_with_next_vowel ch
  else get_final_with_no_next_vowel ch

/-- One step of the loop of `romanize_decomposed_hangul` (src/romanize.rs,
lines 175-182): emit the romanization of `prev_char`, using whether the
character after it is the silent placeholder ᄋ, or `prev_char` itself if
it has no mapping. -/
def romanize_pair (prev_char ch : Nat) : List Nat :=
  match get_romanized_jamo prev_char (decide (ch = 0x110B)) with
  | some romanized => romanized
  | none => [prev_char]

/-- The loop of `romanize_decomposed_hangul` after the first character has
become `prev_char`; the `[]` case is the trailing sentinel space (0x20)
chained onto the input. -/
def romanizeLoop (prev_char : Nat) : List Nat → List Nat
  | [] => romanize_pair prev_char 0x20
  | ch :: rest => romanize_pair prev_char ch ++ romanizeLoop ch rest

/-- `romanize_decomposed_hangul` (src/romanize.rs, lines 171-186).  On an
empty input the loop body only ever sees `prev_char == None` (for the
sentinel space) and emits nothing. -/
def romanize_decomposed_hangul : List Nat → List Nat
  | [] => []
  | ch :: rest => romanizeLoop ch rest

/-! ### Specification-side definitions used only in theorem statements. -/

/-- The eleven two-element final-consonant clusters that
`compound_consonant_rule` defines outcomes for. -/
def is_compound_final (f : Nat) : Bool :=
  f = 0x11AA ∨ f = 0x11AC ∨ f = 0x11AD ∨ f = 0x11B0 ∨ f = 0x11B1 ∨ f = 0x11B2
    ∨ f = 0x11B3 ∨ f = 0x11B4 ∨ f = 0x11B5 ∨ f = 0x11B6 ∨ f = 0x11B9

/-- Claim-side check that a final consonant, when followed by the silent
placeholder, moves to become the next syllable initial: the rule result
removes the final and promotes an initial consonant spelling the same
letter (same Hangul Compatibility Jamo) as the final. -/
def moves_final_to_matching_initial (f : Nat) : Bool :=
  match resyllabification_rule
      { final_consonant := ModernJamo.FinalConsonant f
        next_initial_consonant := some (ModernJamo.InitialConsonant 0x110B) } with
  | RuleResult.RemoveFinalAndChangeNextInitial (ModernJamo.InitialConsonant m) =>
    decide (0x1100 ≤ m ∧ m ≤ 0x1112) &&
      decide (hangul_jamo_to_compat m = hangul_jamo_to_compat f)
  | _ => false

/-- The default single-final reduction of each cluster (the catch-all
rows of the compound-consonant table). -/
def compound_default_final (f : Nat) : Nat :=
  if f = 0x11AA then 0x11A8        -- ᆪ => ᆨ
  else if f = 0x11AC then 0x11AB   -- ᆬ => ᆫ
  else if f = 0x11AD then 0x11AB   -- ᆭ => ᆫ
  else if f = 0x11B0 then 0x11A8   -- ᆰ => ᆨ
  else if f = 0x11B1 then 0x11B7   -- ᆱ => ᆷ
  else if f = 0x11B2 then 0x11AF   -- ᆲ => ᆯ
  else if f = 0x11B3 then 0x11AF   -- ᆳ => ᆯ
  else if f = 0x11B4 then 0x11AF   -- ᆴ => ᆯ
  else if f = 0x11B5 then 0x11B8   -- ᆵ => ᆸ
  else if f = 0x11B6 then 0x11AF   -- ᆶ => ᆯ
  else 0x11B8                      -- ᆹ => ᆸ

/-- The corrected description of `compound_consonant_rule` on a cluster
final followed by an initial consonant, stated independently of the
source: before the silent placeholder ᄋ most clusters keep a simplified
final and promote their second element (ᆳ promotes the tensed ᄊ; ᆭ and
ᆶ only reduce, leaving the placeholder in place); before other initial
consonants only the single-consonant reduction applies, except that ᆭ
and ᆶ aspirate a following plain ᄀ/ᄃ/ᄌ, ᆰ tenses a following ᄀ, and
ᆲ before ᄃ reduces to ᆸ. -/
def compound_rule_spec (f i : Nat) : RuleResult :=
  if i = 0x110B then
    if f = 0x11AA then
      RuleResult.ChangeBoth (ModernJamo.FinalConsonant 0x11A8) (ModernJamo.InitialConsonant 0x1109)
    else if f = 0x11AC then
      RuleResult.ChangeBoth (ModernJamo.FinalConsonant 0x11AB) (ModernJamo.InitialConsonant 0x110C)
    else if f = 0x11AD then
      RuleResult.ChangeFinal (ModernJamo.FinalConsonant 0x11AB)
    else if f = 0x11B0 then
      RuleResult.ChangeBoth (ModernJamo.FinalConsonant 0x11AF) (ModernJamo.InitialConsonant 0x1100)
    else if f = 0x11B1 then
      RuleResult.ChangeBoth (ModernJamo.FinalConsonant 0x11AF) (ModernJamo.InitialConsonant 0x1106)
    else if f = 0x11B2 then
      RuleResult.ChangeBoth (ModernJamo.FinalConsonant 0x11AF) (ModernJamo.InitialConsonant 0x1107)
    else if f = 0x11B3 then
      RuleResult.ChangeBoth (ModernJamo.FinalConsonant 0x11AF) (ModernJamo.InitialConsonant 0x110A)
    else if f = 0x11B4 then
      RuleResult.ChangeBoth (ModernJamo.FinalConsonant 0x11AF) (ModernJamo.InitialConsonant 0x1110)
    else if f = 0x11B5 then
      RuleResult.ChangeBoth (ModernJamo.FinalConsonant 0x11AF) (ModernJamo.InitialConsonant 0x1111)
    else if f = 0x11B6 then
      RuleResult.ChangeFinal (ModernJamo.FinalConsonant 0x11AF)
    else RuleResult.ChangeBoth (ModernJamo.FinalConsonant 0x11B8) (ModernJamo.InitialConsonant 0x1109)
  else if f = 0x11AD ∧ i = 0x1100 then
    RuleResult.ChangeBoth (ModernJamo.FinalConsonant 0x11AB) (ModernJamo.InitialConsonant 0x110F)
  else if f = 0x11AD ∧ i = 0x1103 then
    RuleResult.ChangeBoth (ModernJamo.FinalConsonant 0x11AB) (ModernJamo.InitialConsonant 0x1110)
  else if f = 0x11AD ∧ i = 0x110C then
    RuleResult.ChangeBoth (ModernJamo.FinalConsonant 0x11AB) (ModernJamo.InitialConsonant 0x110E)
  else if f = 0x11B0 ∧ i = 0x1100 then
    RuleResult.ChangeBoth (ModernJamo.FinalConsonant 0x11AF) (ModernJamo.InitialConsonant 0x1101)
  else if f = 0x11B2 ∧ i = 0x1103 then
    RuleResult.ChangeFinal (ModernJamo.FinalConsonant 0x11B8)
  else if f = 0x11B6 ∧ i = 0x1100 then
    RuleResult.ChangeBoth (ModernJamo.FinalConsonant 0x11AF) (ModernJamo.InitialConsonant 0x110F)
  else if f = 0x11B6 ∧ i = 0x1103 then
    RuleResult.ChangeBoth (ModernJamo.FinalConsonant 0x11AF) (ModernJamo.InitialConsonant 0x1110)
  else if f = 0x11B6 ∧ i = 0x110C then
    RuleResult.ChangeBoth (ModernJamo.FinalConsonant 0x11AF) (ModernJamo.InitialConsonant 0x110E)
  else RuleResult.ChangeFinal (ModernJamo.FinalConsonant (compound_default_final f))

/-- The cursor-relative meaning of `next_syllable` asserted by the claim
for the stream positioned at jamo index `k`: compose the jamo slice
between the first syllable-start index after `k` and the one after it
(or the sequence end); none when no syllable start follows `k`. -/
def nextSyllableSpec (l : List Nat) (k : Nat) : Option Nat :=
  match (syllableIndicesFrom 0 l).filter (fun i => decide (k < i)) with
  | [] => none
  | [a] => compose_hangul_jamos_to_syllable (l.drop a)
  | a :: b :: _ => compose_hangul_jamos_to_syllable ((l.drop a).take (b - a))

/-- The stream state reached after `k` iteration steps from a fresh
stream over `l` whose first character is an initial consonant: the
cursor sits at jamo index `k` and the internal syllable counter holds
the number of syllable starts in positions `1..k` (position 0 is never
counted, hence the subtraction). -/
def streamState (l : List Nat) (k : Nat) : JamoStream :=
  { jamos := l
    syllable_indices := syllableIndicesFrom 0 l
    index := k
    syllable_index := (syllableIndicesFrom 0 l).countP (fun i => decide (i ≤ k)) - 1 }

/-! ### Helper lemmas for the syllable codec -/

set_option maxRecDepth 4000

lemma fromChar_syllables (c : Nat) (h1 : 0xAC00 ≤ c) (h2 : c ≤ 0xD7AF) :
    HangulCharClass.fromChar c = HangulCharClass.Syllables := by
  unfold HangulCharClass.fromChar
  rw [if_pos ⟨h1, h2⟩]

lemma fromChar_jamo (c : Nat) (h1 : 0x1100 ≤ c) (h2 : c ≤ 0x11FF) :
    HangulCharClass.fromChar c = HangulCharClass.Jamo := by
  unfold HangulCharClass.fromChar
  rw [if_neg (by omega), if_pos ⟨h1, h2⟩]

lemma fromChar_eq_syllables_iff (c : Nat) :
    HangulCharClass.fromChar c = HangulCharClass.Syllables ↔ 0xAC00 ≤ c ∧ c ≤ 0xD7AF := by
  constructor
  · intro hs
    by_contra hc
    unfold HangulCharClass.fromChar at hs
    rw [if_neg hc] at hs
    split at hs <;> simp_all
    split at hs <;> simp_all
    split at hs <;> simp_all
    split at hs <;> simp_all
  · intro hc
    exact fromChar_syllables c hc.1 hc.2

lemma charFromU32_scalar (n : Nat) (h : isUnicodeScalarValue n) : charFromU32 n = some n := by
  simp [charFromU32, h]

lemma compose_check_syllable (c : Nat) (h1 : 0xAC00 ≤ c) (h2 : c ≤ 0xD7AF) :
    compose_check c = some c := by
  unfold compose_check
  rw [charFromU32_scalar c (Or.inl (by omega))]
  simp [fromChar_syllables c h1 h2]

lemma decompose_eq (ch : Nat) (h1 : 0xAC00 ≤ ch) (h2 : ch ≤ 0xD7AF) :
    decompose_hangul_syllable_to_jamos ch =
      some (0x1100 + (ch - 0xAC00) / 588,
            0x1161 + (ch - 0xAC00) % 588 / 28,
            if (ch - 0xAC00) % 588 % 28 = 0 then none
            else some (0x11A7 + (ch - 0xAC00) % 588 % 28)) := by
  have hclass := fromChar_syllables ch h1 h2
  have h588 := Nat.div_add_mod (ch - 0xAC00) 588
  have h28 := Nat.div_add_mod ((ch - 0xAC00) % 588) 28
  have hm2 : (ch - 0xAC00) % 588 % 28 < 28 := Nat.mod_lt _ (by norm_num)
  have e1 : ch - 0xAC00 - (ch - 0xAC00) / 588 * 588 = (ch - 0xAC00) % 588 := by omega
  have e2 : (ch - 0xAC00) % 588 - (ch - 0xAC00) % 588 / 28 * 28 = (ch - 0xAC00) % 588 % 28 := by
    omega
  have e3 : charFromU32 (0x11A7 + (ch - 0xAC00) % 588 % 28)
      = some (0x11A7 + (ch - 0xAC00) % 588 % 28) :=
    charFromU32_scalar _ (Or.inl (by omega))
  unfold decompose_hangul_syllable_to_jamos
  rw [if_neg (by simp [hclass])]
  simp only [e1, e2, e3]

lemma compose_two (i m : Nat) (h : i * 588 + m * 28 + 0xAC00 ≤ 0xD7AF) :
    compose_hangul_jamos_to_syllable [0x1100 + i, 0x1161 + m]
      = some (i * 588 + m * 28 + 0xAC00) := by
  simp only [compose_hangul_jamos_to_syllable, compose_final_idx]
  rw [if_neg (by omega), if_neg (by omega)]
  simp only [Nat.add_sub_cancel_left]
  rw [compose_check_syllable _ (by omega) (by omega)]

lemma compose_three (i m f : Nat) (hf : 0 < f)
    (h : i * 588 + m * 28 + f + 0xAC00 ≤ 0xD7AF) :
    compose_hangul_jamos_to_syllable [0x1100 + i, 0x1161 + m, 0x11A7 + f]
      = some (i * 588 + m * 28 + f + 0xAC00) := by
  simp only [compose_hangul_jamos_to_syllable, compose_final_idx]
  rw [if_neg (by omega), if_neg (by omega), if_neg (by omega)]
  simp only [Nat.add_sub_cancel_left]
  rw [compose_check_syllable _ (by omega) (by omega)]

lemma compose_check_some (cp s : Nat) (h : compose_check cp = some s) :
    HangulCharClass.fromChar s = HangulCharClass.Syllables := by
  unfold compose_check at h
  rcases hc : charFromU32 cp with _ | v
  · rw [hc] at h
    exact Option.noConfusion h
  · rw [hc] at h
    replace h : (if HangulCharClass.fromChar v = HangulCharClass.Syllables then some v
        else none) = some s := h
    by_cases hs : HangulCharClass.fromChar v = HangulCharClass.Syllables
    · rw [if_pos hs] at h
      obtain rfl : v = s := Option.some.inj h
      exact hs
    · rw [if_neg hs] at h
      exact Option.noConfusion h

/-! ### The claims about the syllable codec: C1, C6, C7, C8 -/

/-- C1: for every Unicode scalar value in the Hangul Syllables range
(U+AC00..U+D7AF), `decompose_hangul_syllable_to_jamos` returns a triple,
and composing that triple (as the 2- or 3-character sequence it spells)
with `compose_hangul_jamos_to_syllable` yields back exactly the original
character. -/
theorem claim_c1_compose_decompose_round_trip (ch : Nat)
    (h1 : 0xAC00 ≤ ch) (h2 : ch ≤ 0xD7AF) :
    ∃ t, decompose_hangul_syllable_to_jamos ch = some t ∧
      compose_hangul_jamos_to_syllable (tripleToList t) = some ch := by
  have h588 := Nat.div_add_mod (ch - 0xAC00) 588
  have h28 := Nat.div_add_mod ((ch - 0xAC00) % 588) 28
  have hm1 : (ch - 0xAC00) % 588 < 588 := Nat.mod_lt _ (by norm_num)
  have hm2 : (ch - 0xAC00) % 588 % 28 < 28 := Nat.mod_lt _ (by norm_num)
  refine ⟨_, decompose_eq ch h1 h2, ?_⟩
  by_cases hf : (ch - 0xAC00) % 588 % 28 = 0
  · rw [if_pos hf]
    show compose_hangul_jamos_to_syllable
      [0x1100 + (ch - 0xAC00) / 588, 0x1161 + (ch - 0xAC00) % 588 / 28] = some ch
    rw [compose_two _ _ (by omega)]
    exact congrArg some (by omega)
  · rw [if_neg hf]
    show compose_hangul_jamos_to_syllable
      [0x1100 + (ch - 0xAC00) / 588, 0x1161 + (ch - 0xAC00) % 588 / 28,
       0x11A7 + (ch - 0xAC00) % 588 % 28] = some ch
    rw [compose_three _ _ _ (by omega) (by omega)]
    exact congrArg some (by omega)

/-- C1 witness: the round trip at the concrete syllable 객 (U+AC1D). -/
theorem claim_c1_compose_decompose_round_trip_witness :
    0xAC00 ≤ 0xAC1D ∧ 0xAC1D ≤ 0xD7AF ∧
    ∃ t, decompose_hangul_syllable_to_jamos 0xAC1D = some t ∧
      compose_hangul_jamos_to_syllable (tripleToList t) = some 0xAC1D :=
  ⟨by norm_num, by norm_num,
    claim_c1_compose_decompose_round_trip 0xAC1D (by norm_num) (by norm_num)⟩

/-- C6 counterexample: a four-character sequence is neither 2 nor 3
characters long, yet `compose_hangul_jamos_to_syllable` returns `Some`
on it (the iterator is never pulled past the third character), so the
claim that any sequence other than exactly 2 or 3 characters yields
`None` is false. -/
theorem claim_c6_counterexample :
    compose_hangul_jamos_to_syllable [0x1100, 0x1161, 0x11A8, 0x41] = some 0xAC01 ∧
    ([0x1100, 0x1161, 0x11A8, 0x41] : List Nat).length ≠ 2 ∧
    ([0x1100, 0x1161, 0x11A8, 0x41] : List Nat).length ≠ 3 := by
  refine ⟨by decide, by decide, by decide⟩

/-- C6 as amended: `compose_hangul_jamos_to_syllable` returns `None`
whenever the initial character is below U+1100, or the medial character
is below U+1161; every `Some` it returns classifies as `Syllables`;
empty and 1-character sequences yield `None`; and the function examines
at most the first three characters, so a longer sequence is decided by
its three-character prefix (hence a 4-or-more-character sequence whose
prefix composes does not yield `None`). -/
theorem claim_c6_amended_error_handling :
    (∀ initial_ch rest, initial_ch < 0x1100 →
        compose_hangul_jamos_to_syllable (initial_ch :: rest) = none) ∧
    (∀ initial_ch medial_ch rest2, medial_ch < 0x1161 →
        compose_hangul_jamos_to_syllable (initial_ch :: medial_ch :: rest2) = none) ∧
    (∀ chars syllable, compose_hangul_jamos_to_syllable chars = some syllable →
        HangulCharClass.fromChar syllable = HangulCharClass.Syllables) ∧
    compose_hangul_jamos_to_syllable [] = none ∧
    (∀ ch, compose_hangul_jamos_to_syllable [ch] = none) ∧
    (∀ a b c rest, compose_hangul_jamos_to_syllable (a :: b :: c :: rest)
        = compose_hangul_jamos_to_syllable [a, b, c]) := by
  refine ⟨?_, ?_, ?_, rfl, fun ch => rfl, ?_⟩
  · intro initial_ch rest h
    cases rest with
    | nil => rfl
    | cons b t =>
      simp only [compose_hangul_jamos_to_syllable]
      rw [if_pos h]
  · intro initial_ch medial_ch rest2 h
    by_cases hi : initial_ch < 0x1100
    · simp only [compose_hangul_jamos_to_syllable]
      rw [if_pos hi]
    · simp only [compose_hangul_jamos_to_syllable]
      rw [if_neg hi, if_pos h]
  · intro chars syllable h
    rcases chars with _ | ⟨a, _ | ⟨b, r⟩⟩
    · exact Option.noConfusion h
    · exact Option.noConfusion h
    · simp only [compose_hangul_jamos_to_syllable] at h
      by_cases hi : a < 0x1100
      · rw [if_pos hi] at h
        exact Option.noConfusion h
      · rw [if_neg hi] at h
        by_cases hm : b < 0x1161
        · rw [if_pos hm] at h
          exact Option.noConfusion h
        · rw [if_neg hm] at h
          rcases hfi : compose_final_idx r with _ | fi
          · rw [hfi] at h
            exact Option.noConfusion h
          · rw [hfi] at h
            exact compose_check_some _ _ h
  · intro a b c rest
    simp only [compose_hangul_jamos_to_syllable, compose_final_idx]

/-- C6 amended witness: the amended statement applied at concrete
inputs for each hypothesis-bearing conjunct. -/
theorem claim_c6_amended_error_handling_witness :
    compose_hangul_jamos_to_syllable (0x41 :: [0x1161]) = none ∧
    compose_hangul_jamos_to_syllable (0x1100 :: 0x42 :: []) = none ∧
    compose_hangul_jamos_to_syllable [0x1100, 0x1161, 0x11A8, 0x41]
      = compose_hangul_jamos_to_syllable [0x1100, 0x1161, 0x11A8] :=
  ⟨claim_c6_amended_error_handling.1 0x41 [0x1161] (by norm_num),
   claim_c6_amended_error_handling.2.1 0x1100 0x42 [] (by norm_num),
   claim_c6_amended_error_handling.2.2.2.2.2 0x1100 0x1161 0x11A8 [0x41]⟩

/-- C7 counterexample: at 하 (U+D558) the decomposition has initial
index 18 (initial consonant ᄒ, U+1112), and no representation
`codepoint - 0xAC00 = i*588 + m*28 + f` with `i < 18`, `m < 21`,
`f < 28` exists, so the claimed range `initial_idx ∈ [0,18)` is wrong:
there are 19 initial consonants, not 18. -/
theorem claim_c7_counterexample :
    decompose_hangul_syllable_to_jamos 0xD558 = some (0x1112, 0x1161, none) ∧
    ¬ ∃ i, i < 18 ∧ ∃ m, m < 21 ∧ ∃ f, f < 28 ∧
        0xD558 - 0xAC00 = i * 588 + m * 28 + f := by
  constructor
  · decide
  · rintro ⟨i, hi, m, hm, f, hf, heq⟩
    omega

/-- C7 as amended: for every character the classifier puts in the
Syllables class (U+AC00..U+D7AF), the decomposition satisfies the
defining equation `codepoint - 0xAC00 = i*588 + m*28 + f` with
`m ∈ [0,21)`, `f ∈ [0,28)` (`f = 0` meaning no final consonant is
returned) and `i ∈ [0,20)`; `i ≤ 18` (19 initial consonants) holds on
the true syllable block U+AC00..U+D7A3, while the twelve classifier
members U+D7A4..U+D7AF yield `i = 19`. -/
theorem claim_c7_amended_defining_equation (ch : Nat)
    (h1 : 0xAC00 ≤ ch) (h2 : ch ≤ 0xD7AF) :
    ∃ i m f,
      decompose_hangul_syllable_to_jamos ch =
        some (0x1100 + i, 0x1161 + m, if f = 0 then none else some (0x11A7 + f)) ∧
      ch - 0xAC00 = i * 588 + m * 28 + f ∧
      i < 20 ∧ m < 21 ∧ f < 28 ∧ (ch ≤ 0xD7A3 → i < 19) := by
  refine ⟨(ch - 0xAC00) / 588, (ch - 0xAC00) % 588 / 28, (ch - 0xAC00) % 588 % 28,
    decompose_eq ch h1 h2, by omega, by omega, by omega, by omega, fun h3 => by omega⟩

/-- C7 amended witness: the defining equation at the concrete syllable
하 (U+D558), whose initial index is 18. -/
theorem claim_c7_amended_defining_equation_witness :
    0xAC00 ≤ 0xD558 ∧ 0xD558 ≤ 0xD7AF ∧
    ∃ i m f,
      decompose_hangul_syllable_to_jamos 0xD558 =
        some (0x1100 + i, 0x1161 + m, if f = 0 then none else some (0x11A7 + f)) ∧
      0xD558 - 0xAC00 = i * 588 + m * 28 + f ∧
      i < 20 ∧ m < 21 ∧ f < 28 ∧ (0xD558 ≤ 0xD7A3 → i < 19) :=
  ⟨by norm_num, by norm_num,
    claim_c7_amended_defining_equation 0xD558 (by norm_num) (by norm_num)⟩

/-- C8: `decompose_hangul_syllable_to_jamos` is safe on every scalar
value: characters not classified `Syllables` give `None`, and on every
character the classifier puts in `Syllables` (all of U+AC00..U+D7AF)
the function returns a triple whose initial and medial code points are
valid scalar values (so the `char::from_u32(..).unwrap()` calls cannot
panic) and classify as `Jamo` (so the two `assert_eq!` checks hold). -/
theorem claim_c8_no_panic :
    (∀ ch, HangulCharClass.fromChar ch ≠ HangulCharClass.Syllables →
        decompose_hangul_syllable_to_jamos ch = none) ∧
    (∀ ch, HangulCharClass.fromChar ch = HangulCharClass.Syllables →
      ∃ initial_ch medial_ch maybe_final_ch,
        decompose_hangul_syllable_to_jamos ch
          = some (initial_ch, medial_ch, maybe_final_ch) ∧
        isUnicodeScalarValue initial_ch ∧ isUnicodeScalarValue medial_ch ∧
        HangulCharClass.fromChar initial_ch = HangulCharClass.Jamo ∧
        HangulCharClass.fromChar medial_ch = HangulCharClass.Jamo) := by
  constructor
  · intro ch h
    unfold decompose_hangul_syllable_to_jamos
    rw [if_pos h]
  · intro ch hs
    obtain ⟨h1, h2⟩ := (fromChar_eq_syllables_iff ch).mp hs
    have hdiv : (ch - 0xAC00) / 588 < 20 := by omega
    have hmod : (ch - 0xAC00) % 588 / 28 < 21 := by omega
    refine ⟨_, _, _, decompose_eq ch h1 h2, Or.inl (by omega), Or.inl (by omega),
      fromChar_jamo _ (by omega) (by omega), fromChar_jamo _ (by omega) (by omega)⟩

/-- C8 witness: both parts applied at concrete characters — the Latin
letter A (not a syllable) and the syllable 가 (U+AC00). -/
theorem claim_c8_no_panic_witness :
    decompose_hangul_syllable_to_jamos 0x41 = none ∧
    ∃ initial_ch medial_ch maybe_final_ch,
      decompose_hangul_syllable_to_jamos 0xAC00
        = some (initial_ch, medial_ch, maybe_final_ch) ∧
      isUnicodeScalarValue initial_ch ∧ isUnicodeScalarValue medial_ch ∧
      HangulCharClass.fromChar initial_ch = HangulCharClass.Jamo ∧
      HangulCharClass.fromChar medial_ch = HangulCharClass.Jamo :=
  ⟨claim_c8_no_panic.1 0x41 (by decide), claim_c8_no_panic.2 0xAC00 (by decide)⟩

/-! ### Helper lemmas for the modern-jamo classifier -/

lemma try_from_char_initial (c j : Nat)
    (h : ModernJamo.try_from_char c = some (ModernJamo.InitialConsonant j)) :
    j = c := by
  unfold ModernJamo.try_from_char at h
  split_ifs at h <;> simp_all

lemma try_from_char_vowel (c j : Nat)
    (h : ModernJamo.try_from_char c = some (ModernJamo.Vowel j)) :
    j = c := by
  unfold ModernJamo.try_from_char at h
  split_ifs at h <;> simp_all

lemma try_from_char_final (c j : Nat)
    (h : ModernJamo.try_from_char c = some (ModernJamo.FinalConsonant j)) :
    j = c ∧ 0x11A8 ≤ c ∧ c ≤ 0x11C2 := by
  unfold ModernJamo.try_from_char at h
  split_ifs at h <;> simp_all

/-! ### The claims about the pronunciation-rule pipeline: C2, C3, C4, C10 -/

/-- C10: `apply_pronunciation_rules_to_jamos` is the identity on every
input containing no modern final-consonant jamo (no character in
U+11A8..U+11C2): initial consonants, vowels and all unclassified
characters are emitted unchanged in order, and the skip flag is never
set. -/
theorem claim_c10_identity_without_finals (l : List Nat)
    (h : ∀ c ∈ l, ¬(0x11A8 ≤ c ∧ c ≤ 0x11C2)) :
    apply_pronunciation_rules_to_jamos l = l := by
  show applyRulesLoop false l = l
  induction l with
  | nil => rfl
  | cons c rest ih =>
    have hc := h c (List.mem_cons_self c rest)
    have hrest : applyRulesLoop false rest = rest :=
      ih (fun x hx => h x (List.mem_cons_of_mem c hx))
    rcases htc : ModernJamo.try_from_char c with _ | mj
    · simp only [applyRulesLoop, htc, hrest]
    · cases mj with
      | InitialConsonant j =>
        obtain rfl := try_from_char_initial c j htc
        simp only [applyRulesLoop, htc, if_neg (by simp : ¬False), hrest]
        simp [hrest]
      | Vowel j =>
        obtain rfl := try_from_char_vowel c j htc
        simp only [applyRulesLoop, htc, hrest]
      | FinalConsonant j =>
        exact absurd (try_from_char_final c j htc).2 hc

/-- C10 witness: the pipeline leaves a final-consonant-free mix of an
initial consonant, a vowel, a space, a precomposed syllable and a Latin
letter unchanged. -/
theorem claim_c10_identity_without_finals_witness :
    apply_pronunciation_rules_to_jamos [0x1100, 0x1161, 0x20, 0xAC00, 0x68]
      = [0x1100, 0x1161, 0x20, 0xAC00, 0x68] :=
  claim_c10_identity_without_finals [0x1100, 0x1161, 0x20, 0xAC00, 0x68] (by decide)

/-- C2: the resyllabification rule moves a simple (non-cluster) final
consonant that is followed by the silent placeholder ᄋ into the next
syllable initial position — the promoted initial consonant spells the
same letter (same Compatibility Jamo) as the final, the final is
removed — except that ᆼ never relocates and ᇂ is dropped with no
promotion; and the full pipeline maps the decompositions of 십오, 생일,
좋아 to jamo sequences recomposing to 시보, 생일 (unchanged) and 조아. -/
theorem claim_c2_resyllabification :
    (∀ f, 0x11A8 ≤ f → f ≤ 0x11C2 → is_compound_final f = false →
      (f = 0x11BC → resyllabification_rule
          { final_consonant := ModernJamo.FinalConsonant f
            next_initial_consonant := some (ModernJamo.InitialConsonant 0x110B) }
          = RuleResult.NoChange) ∧
      (f = 0x11C2 → resyllabification_rule
          { final_consonant := ModernJamo.FinalConsonant f
            next_initial_consonant := some (ModernJamo.InitialConsonant 0x110B) }
          = RuleResult.RemoveFinal) ∧
      (f ≠ 0x11BC → f ≠ 0x11C2 → moves_final_to_matching_initial f = true)) ∧
    (apply_pronunciation_rules_to_jamos (decompose_all_hangul_syllables [0xC2ED, 0xC624])
        = [0x1109, 0x1175, 0x1107, 0x1169] ∧
      compose_hangul_jamos_to_syllable [0x1109, 0x1175] = some 0xC2DC ∧
      compose_hangul_jamos_to_syllable [0x1107, 0x1169] = some 0xBCF4) ∧
    (apply_pronunciation_rules_to_jamos (decompose_all_hangul_syllables [0xC0DD, 0xC77C])
        = decompose_all_hangul_syllables [0xC0DD, 0xC77C] ∧
      compose_hangul_jamos_to_syllable [0x1109, 0x1162, 0x11BC] = some 0xC0DD ∧
      compose_hangul_jamos_to_syllable [0x110B, 0x1175, 0x11AF] = some 0xC77C) ∧
    (apply_pronunciation_rules_to_jamos (decompose_all_hangul_syllables [0xC88B, 0xC544])
        = [0x110C, 0x1169, 0x110B, 0x1161] ∧
      compose_hangul_jamos_to_syllable [0x110C, 0x1169] = some 0xC870 ∧
      compose_hangul_jamos_to_syllable [0x110B, 0x1161] = some 0xC544) := by
  refine ⟨?_, by decide, by decide, by decide⟩
  intro f h1 h2
  obtain ⟨k, rfl⟩ : ∃ k, f = 0x11A8 + k := ⟨f - 0x11A8, by omega⟩
  have hk : k < 27 := by omega
  clear h1 h2
  revert hk
  revert k
  decide

/-- C2 witness: the resyllabification statement applied at the simple
final consonant ᆸ (U+11B8). -/
theorem claim_c2_resyllabification_witness :
    is_compound_final 0x11B8 = false ∧ moves_final_to_matching_initial 0x11B8 = true :=
  ⟨by decide,
    (claim_c2_resyllabification.1 0x11B8 (by decide) (by decide) (by decide)).2.2
      (by decide) (by decide)⟩

/-- C3: the reinforcement rule, on one of the tense-inducing final
consonants (ᆸ ᆨ ᆿ ᆮ ᆺ ᆽ ᆾ ᇀ) followed by one of the five plain
initial consonants ᄀ ᄃ ᄇ ᄉ ᄌ, replaces that initial by its tensed
counterpart (the next code point: ᄁ ᄄ ᄈ ᄊ ᄍ) leaving the final
untouched (`ChangeNextInitial`); the final ᇂ before ᄉ removes the final
and tenses the ᄉ; and the pipeline maps the decompositions of 학교,
학생, 먹다 to jamo sequences recomposing to 학꾜, 학쌩, 먹따. -/
theorem claim_c3_reinforcement :
    (∀ f, (f = 0x11B8 ∨ f = 0x11A8 ∨ f = 0x11BF ∨ f = 0x11AE ∨ f = 0x11BA ∨ f = 0x11BD
        ∨ f = 0x11BE ∨ f = 0x11C0) →
      ∀ i, (i = 0x1100 ∨ i = 0x1103 ∨ i = 0x1107 ∨ i = 0x1109 ∨ i = 0x110C) →
        reinforcement_rule
          { final_consonant := ModernJamo.FinalConsonant f
            next_initial_consonant := some (ModernJamo.InitialConsonant i) }
          = RuleResult.ChangeNextInitial (ModernJamo.InitialConsonant (i + 1))) ∧
    reinforcement_rule
        { final_consonant := ModernJamo.FinalConsonant 0x11C2
          next_initial_consonant := some (ModernJamo.InitialConsonant 0x1109) }
      = RuleResult.RemoveFinalAndChangeNextInitial (ModernJamo.InitialConsonant 0x110A) ∧
    (apply_pronunciation_rules_to_jamos (decompose_all_hangul_syllables [0xD559, 0xAD50])
        = [0x1112, 0x1161, 0x11A8, 0x1101, 0x116D] ∧
      compose_hangul_jamos_to_syllable [0x1112, 0x1161, 0x11A8] = some 0xD559 ∧
      compose_hangul_jamos_to_syllable [0x1101, 0x116D] = some 0xAF9C) ∧
    (apply_pronunciation_rules_to_jamos (decompose_all_hangul_syllables [0xD559, 0xC0DD])
        = [0x1112, 0x1161, 0x11A8, 0x110A, 0x1162, 0x11BC] ∧
      compose_hangul_jamos_to_syllable [0x110A, 0x1162, 0x11BC] = some 0xC329) ∧
    (apply_pronunciation_rules_to_jamos (decompose_all_hangul_syllables [0xBA39, 0xB2E4])
        = [0x1106, 0x1165, 0x11A8, 0x1104, 0x1161] ∧
      compose_hangul_jamos_to_syllable [0x1106, 0x1165, 0x11A8] = some 0xBA39 ∧
      compose_hangul_jamos_to_syllable [0x1104, 0x1161] = some 0xB530) := by
  refine ⟨?_, by decide, by decide, by decide, by decide⟩
  intro f hf i hi
  rcases hf with rfl | rfl | rfl | rfl | rfl | rfl | rfl | rfl <;>
    rcases hi with rfl | rfl | rfl | rfl | rfl <;> decide

/-- C3 witness: reinforcement applied at the concrete pair final ᆨ,
initial ᄀ. -/
theorem claim_c3_reinforcement_witness :
    reinforcement_rule
        { final_consonant := ModernJamo.FinalConsonant 0x11A8
          next_initial_consonant := some (ModernJamo.InitialConsonant 0x1100) }
      = RuleResult.ChangeNextInitial (ModernJamo.InitialConsonant (0x1100 + 1)) :=
  claim_c3_reinforcement.1 0x11A8 (by decide) 0x1100 (by decide)

/-- C4 counterexample: the cluster ᆭ followed by the initial consonant
ᄀ — which is not the silent placeholder — does not get the claimed
plain single-consonant reduction (which would leave the next initial
untouched, a `ChangeFinal`); the rule also aspirates the following ᄀ
to ᄏ. -/
theorem claim_c4_counterexample :
    compound_consonant_rule
        { final_consonant := ModernJamo.FinalConsonant 0x11AD
          next_initial_consonant := some (ModernJamo.InitialConsonant 0x1100) }
      = RuleResult.ChangeBoth (ModernJamo.FinalConsonant 0x11AB)
          (ModernJamo.InitialConsonant 0x110F) ∧
    RuleResult.ChangeBoth (ModernJamo.FinalConsonant 0x11AB)
        (ModernJamo.InitialConsonant 0x110F)
      ≠ RuleResult.ChangeFinal (ModernJamo.FinalConsonant 0x11AB) := by
  exact ⟨by decide, by decide⟩

/-- C4 as amended: the compound-consonant rule is the first rule of the
pipeline; on a cluster final followed by an initial consonant it behaves
as `compound_rule_spec` — before the silent placeholder ᄋ it keeps a
simplified single final and promotes the second cluster element (except
ᆳ, which promotes the tensed ᄊ, and ᆭ/ᆶ, which only reduce), while
before other initials only the single-consonant reduction applies except
the aspiration/tensing rows for ᆭ, ᆰ, ᆲ, ᆶ; with no following
character only the default reduction applies; and the pipeline maps the
decomposition of 넋을 to the jamo sequence recomposing to 넉쓸. -/
theorem claim_c4_amended_compound_rule :
    PRONUNCIATION_RULES.head? = some compound_consonant_rule ∧
    (∀ f i, is_compound_final f = true → 0x1100 ≤ i → i ≤ 0x1112 →
      compound_consonant_rule
          { final_consonant := ModernJamo.FinalConsonant f
            next_initial_consonant := some (ModernJamo.InitialConsonant i) }
        = compound_rule_spec f i) ∧
    (∀ f, is_compound_final f = true →
      compound_consonant_rule
          { final_consonant := ModernJamo.FinalConsonant f
            next_initial_consonant := none }
        = RuleResult.ChangeFinal (ModernJamo.FinalConsonant (compound_default_final f))) ∧
    (apply_pronunciation_rules_to_jamos (decompose_all_hangul_syllables [0xB10B, 0xC744])
        = [0x1102, 0x1165, 0x11A8, 0x110A, 0x1173, 0x11AF] ∧
      compose_hangul_jamos_to_syllable [0x1102, 0x1165, 0x11A8] = some 0xB109 ∧
      compose_hangul_jamos_to_syllable [0x110A, 0x1173, 0x11AF] = some 0xC4F8) := by
  refine ⟨rfl, ?_, ?_, by decide, by decide, by decide⟩
  · intro f i hf h1 h2
    simp only [is_compound_final, decide_eq_true_eq] at hf
    obtain ⟨b, rfl⟩ : ∃ b, i = 0x1100 + b := ⟨i - 0x1100, by omega⟩
    have hb : b < 19 := by omega
    clear h1 h2
    rcases hf with rfl | rfl | rfl | rfl | rfl | rfl | rfl | rfl | rfl | rfl | rfl <;>
      · revert hb
        revert b
        decide
  · intro f hf
    simp only [is_compound_final, decide_eq_true_eq] at hf
    rcases hf with rfl | rfl | rfl | rfl | rfl | rfl | rfl | rfl | rfl | rfl | rfl <;> decide

/-- C4 amended witness: the compound rule applied at the cluster ᆪ
followed by the silent placeholder ᄋ, and at ᆪ with nothing after. -/
theorem claim_c4_amended_compound_rule_witness :
    compound_consonant_rule
        { final_consonant := ModernJamo.FinalConsonant 0x11AA
          next_initial_consonant := some (ModernJamo.InitialConsonant 0x110B) }
      = compound_rule_spec 0x11AA 0x110B ∧
    compound_consonant_rule
        { final_consonant := ModernJamo.FinalConsonant 0x11AA
          next_initial_consonant := none }
      = RuleResult.ChangeFinal (ModernJamo.FinalConsonant (compound_default_final 0x11AA)) :=
  ⟨claim_c4_amended_compound_rule.2.1 0x11AA 0x110B (by decide) (by decide) (by decide),
   claim_c4_amended_compound_rule.2.2.1 0x11AA (by decide)⟩

/-! ### The claim about the romanizer: C5 -/

/-- C5: every final consonant has both a liaison (next character is the
silent placeholder ᄋ) and an unreleased mapping, and `get_romanized_jamo`
selects between them by that context; characters with no defined mapping
are passed through literally by the stream walk; and on the decomposed
jamos of 밥 and 밥을 the romanizer returns the ASCII sequences spelling
bap and babeul. -/
theorem claim_c5_romanizer :
    (∀ ch, 0x11A8 ≤ ch → ch ≤ 0x11C2 →
      get_romanized_jamo ch true = get_final_with_next_vowel ch ∧
      get_romanized_jamo ch false = get_final_with_no_next_vowel ch ∧
      (get_final_with_next_vowel ch).isSome = true ∧
      (get_final_with_no_next_vowel ch).isSome = true) ∧
    (∀ prev_char ch, get_romanized_jamo prev_char (decide (ch = 0x110B)) = none →
      romanize_pair prev_char ch = [prev_char]) ∧
    romanize_decomposed_hangul (decompose_all_hangul_syllables [0xBC25])
      = [0x62, 0x61, 0x70] ∧
    romanize_decomposed_hangul (decompose_all_hangul_syllables [0xBC25, 0xC744])
      = [0x62, 0x61, 0x62, 0x65, 0x75, 0x6C] := by
  refine ⟨?_, ?_, by decide, by decide⟩
  · intro ch h1 h2
    obtain ⟨k, rfl⟩ : ∃ k, ch = 0x11A8 + k := ⟨ch - 0x11A8, by omega⟩
    have hk : k < 27 := by omega
    clear h1 h2
    revert hk
    revert k
    decide
  · intro prev_char ch h
    simp [romanize_pair, h]

/-- C5 witness: the final consonant ᆸ has both mappings selected by
context, and an unmapped Latin letter passes through literally. -/
theorem claim_c5_romanizer_witness :
    get_romanized_jamo 0x11B8 true = get_final_with_next_vowel 0x11B8 ∧
    romanize_pair 0x41 0x42 = [0x41] :=
  ⟨(claim_c5_romanizer.1 0x11B8 (by decide) (by decide)).1,
   claim_c5_romanizer.2.1 0x41 0x42 (by decide)⟩

/-! ### Helper lemmas for the lookahead stream -/

lemma syllableIndicesFrom_shift (n : Nat) (l : List Nat) :
    syllableIndicesFrom n l = (syllableIndicesFrom 0 l).map (· + n) := by
  induction l generalizing n with
  | nil => simp [syllableIndicesFrom]
  | cons c t ih =>
    simp only [syllableIndicesFrom]
    by_cases hc : ModernJamo.is_initial_consonant c
    · rw [if_pos hc, if_pos hc, ih (n + 1), ih 1, List.map_cons, List.map_map]
      have he : ((· + n) ∘ (· + 1)) = (· + (n + 1)) := by
        funext x
        simp only [Function.comp_apply]
        omega
      rw [he]
      congr 1
      omega
    · rw [if_neg hc, if_neg hc, ih (n + 1), ih 1, List.map_map]
      have he : ((· + n) ∘ (· + 1)) = (· + (n + 1)) := by
        funext x
        simp only [Function.comp_apply]
        omega
      rw [he]

lemma syllableIndices_lt_length (l : List Nat) (i : Nat)
    (h : i ∈ syllableIndicesFrom 0 l) : i < l.length := by
  induction l generalizing i with
  | nil => simp [syllableIndicesFrom] at h
  | cons c t ih =>
    rw [syllableIndicesFrom, syllableIndicesFrom_shift 1] at h
    by_cases hc : ModernJamo.is_initial_consonant c
    · rw [if_pos hc] at h
      rcases List.mem_cons.mp h with rfl | hm
      · simp
      · obtain ⟨j, hj, rfl⟩ := List.mem_map.mp hm
        have := ih j hj
        simp only [List.length_cons]
        omega
    · rw [if_neg hc] at h
      obtain ⟨j, hj, rfl⟩ := List.mem_map.mp h
      have := ih j hj
      simp only [List.length_cons]
      omega

lemma syllableIndices_pairwise (l : List Nat) :
    List.Pairwise (· < ·) (syllableIndicesFrom 0 l) := by
  induction l with
  | nil => simp [syllableIndicesFrom]
  | cons c t ih =>
    rw [syllableIndicesFrom, syllableIndicesFrom_shift 1]
    have hmap : List.Pairwise (· < ·) ((syllableIndicesFrom 0 t).map (· + 1)) := by
      rw [List.pairwise_map]
      exact ih.imp (by omega)
    by_cases hc : ModernJamo.is_initial_consonant c
    · rw [if_pos hc]
      refine List.Pairwise.cons ?_ hmap
      intro b hb
      obtain ⟨j, _, rfl⟩ := List.mem_map.mp hb
      omega
    · rw [if_neg hc]
      exact hmap

lemma countP_syllableIndices (l : List Nat) (k : Nat) :
    (syllableIndicesFrom 0 l).countP (fun i => decide (i ≤ k))
      = (l.take (k + 1)).countP (fun c => ModernJamo.is_initial_consonant c) := by
  induction l generalizing k with
  | nil => simp [syllableIndicesFrom]
  | cons c t ih =>
    rw [syllableIndicesFrom, syllableIndicesFrom_shift 1]
    cases k with
    | zero =>
      by_cases hc : ModernJamo.is_initial_consonant c
      · rw [if_pos hc]
        simp only [List.take_succ_cons, List.take_zero, List.countP_cons, List.countP_nil,
          List.countP_map, hc]
        simp [Function.comp]
      · rw [if_neg hc]
        simp only [List.take_succ_cons, List.take_zero, List.countP_cons, List.countP_nil,
          List.countP_map, hc]
        simp [Function.comp]
    | succ j =>
      have he : (fun i => decide (i ≤ j + 1)) ∘ (· + 1) = fun i => decide (i ≤ j) := by
        funext x
        simp only [Function.comp]
        by_cases hx : x ≤ j <;> simp [hx]
      by_cases hc : ModernJamo.is_initial_consonant c
      · rw [if_pos hc]
        simp only [List.take_succ_cons, List.countP_cons, List.countP_map, he, ih j, hc]
        simp
      · rw [if_neg hc]
        simp only [List.take_succ_cons, List.countP_cons, List.countP_map, he, ih j, hc]
        simp

lemma drop_countP_of_pairwise (s : List Nat) (k : Nat)
    (hs : List.Pairwise (· < ·) s) :
    s.drop (s.countP (fun i => decide (i ≤ k))) = s.filter (fun i => decide (k < i)) := by
  induction s with
  | nil => simp
  | cons a t ih =>
    have h1 : ∀ x ∈ t, a < x := fun x hx => List.rel_of_pairwise_cons hs hx
    have h2 : List.Pairwise (· < ·) t := hs.of_cons
    by_cases ha : a ≤ k
    · rw [List.countP_cons_of_pos _ _ (by simpa using ha), List.drop_succ_cons, ih h2,
        List.filter_cons_of_neg (by simpa using Nat.not_lt.mpr ha)]
    · rw [List.countP_cons_of_neg _ _ (by simpa using ha)]
      have hz : t.countP (fun i => decide (i ≤ k)) = 0 := by
        rw [List.countP_eq_zero]
        intro x hx
        have := h1 x hx
        simp only [decide_eq_true_eq]
        omega
      rw [hz, List.drop_zero,
        List.filter_cons_of_pos (by simpa using Nat.lt_of_not_le ha)]
      have hft : t.filter (fun i => decide (k < i)) = t := by
        rw [List.filter_eq_self]
        intro x hx
        have := h1 x hx
        simp only [decide_eq_true_eq]
        omega
      rw [hft]

lemma countP_le_pos (l : List Nat) (c0 : Nat) (h0 : l[0]? = some c0)
    (hi : ModernJamo.is_initial_consonant c0 = true) (k : Nat) :
    1 ≤ (syllableIndicesFrom 0 l).countP (fun i => decide (i ≤ k)) := by
  rw [countP_syllableIndices]
  cases l with
  | nil => simp at h0
  | cons c t =>
    obtain rfl : c = c0 := by simpa using h0
    rw [List.take_succ_cons, List.countP_cons_of_pos _ _ (by simpa using hi)]
    omega

lemma countP_le_zero_eq_one (l : List Nat) (c0 : Nat) (h0 : l[0]? = some c0)
    (hi : ModernJamo.is_initial_consonant c0 = true) :
    (syllableIndicesFrom 0 l).countP (fun i => decide (i ≤ 0)) = 1 := by
  rw [countP_syllableIndices]
  cases l with
  | nil => simp at h0
  | cons c t =>
    obtain rfl : c = c0 := by simpa using h0
    simp [hi]

lemma countP_le_succ (l : List Nat) (k nxt : Nat) (h : l[k + 1]? = some nxt) :
    (syllableIndicesFrom 0 l).countP (fun i => decide (i ≤ k + 1))
      = (syllableIndicesFrom 0 l).countP (fun i => decide (i ≤ k))
        + (if ModernJamo.is_initial_consonant nxt then 1 else 0) := by
  rw [countP_syllableIndices, countP_syllableIndices, List.take_succ, h,
    List.countP_append]
  simp [List.countP_cons]

lemma advance_of_next_none (s : JamoStream) (h : s.next = none) :
    ∀ k, JamoStream.advance k s = s
  | 0 => rfl
  | k + 1 => by
    simp [JamoStream.advance, h]

lemma advance_succ (k : Nat) : ∀ s : JamoStream,
    JamoStream.advance (k + 1) s =
      (match (JamoStream.advance k s).next with
       | some (_, s') => s'
       | none => JamoStream.advance k s) := by
  induction k with
  | zero =>
    intro s
    cases h : s.next with
    | none => simp [JamoStream.advance, h]
    | some p =>
      rcases p with ⟨it, s1⟩
      simp [JamoStream.advance, h]
  | succ k ih =>
    intro s
    cases h : s.next with
    | none =>
      simp [JamoStream.advance, h, advance_of_next_none s h]
    | some p =>
      rcases p with ⟨it, s1⟩
      have hd : JamoStream.advance (k + 1 + 1) s = JamoStream.advance (k + 1) s1 := by
        simp [JamoStream.advance, h]
      have hd2 : JamoStream.advance (k + 1) s = JamoStream.advance k s1 := by
        simp [JamoStream.advance, h]
      rw [hd, hd2, ih s1]

lemma streamState_next_eq (l : List Nat) (k : Nat) (hk : k < l.length) (nxt : Nat)
    (hnxt : l[k + 1]? = some nxt) :
    (streamState l k).next = some
      (⟨l.get ⟨k, hk⟩, if k = 0 then none else l[k - 1]?, some nxt,
        JamoStream.get_syllable_at (streamState l k) ((streamState l k).syllable_index + 1)⟩,
       { jamos := l
         syllable_indices := syllableIndicesFrom 0 l
         index := k + 1
         syllable_index := (streamState l k).syllable_index
           + (if ModernJamo.is_initial_consonant nxt then 1 else 0) }) := by
  have hget : l[k]? = some (l.get ⟨k, hk⟩) := by
    rw [List.getElem?_eq_getElem hk, List.get_eq_getElem]
  rcases htc : ModernJamo.try_from_char nxt with _ | mj
  · have hin : ModernJamo.is_initial_consonant nxt = false := by
      simp [ModernJamo.is_initial_consonant, htc]
    simp [JamoStream.next, streamState, hget, hnxt, htc, hin]
  · cases mj with
    | InitialConsonant j =>
      have hin : ModernJamo.is_initial_consonant nxt = true := by
        simp [ModernJamo.is_initial_consonant, htc]
      simp [JamoStream.next, streamState, hget, hnxt, htc, hin]
    | Vowel j =>
      have hin : ModernJamo.is_initial_consonant nxt = false := by
        simp [ModernJamo.is_initial_consonant, htc]
      simp [JamoStream.next, streamState, hget, hnxt, htc, hin]
    | FinalConsonant j =>
      have hin : ModernJamo.is_initial_consonant nxt = false := by
        simp [ModernJamo.is_initial_consonant, htc]
      simp [JamoStream.next, streamState, hget, hnxt, htc, hin]

lemma advance_eq_streamState (l : List Nat) (c0 : Nat) (h0 : l[0]? = some c0)
    (hi : ModernJamo.is_initial_consonant c0 = true) :
    ∀ k, k < l.length → JamoStream.advance k (JamoStream.from_jamos l) = streamState l k := by
  intro k
  induction k with
  | zero =>
    intro hk
    show JamoStream.from_jamos l = streamState l 0
    unfold JamoStream.from_jamos streamState
    rw [countP_le_zero_eq_one l c0 h0 hi]
  | succ k ih =>
    intro hk
    have hk' : k < l.length := by omega
    cases hnxt : l[k + 1]? with
    | none =>
      have : l.length ≤ k + 1 := List.getElem?_eq_none_iff.mp hnxt
      omega
    | some nxt =>
      rw [advance_succ, ih hk', streamState_next_eq l k hk' nxt hnxt]
      show ({ jamos := l
              syllable_indices := syllableIndicesFrom 0 l
              index := k + 1
              syllable_index := (streamState l k).syllable_index
                + (if ModernJamo.is_initial_consonant nxt then 1 else 0) } : JamoStream)
        = streamState l (k + 1)
      have harith : (streamState l k).syllable_index
          + (if ModernJamo.is_initial_consonant nxt then 1 else 0)
          = (syllableIndicesFrom 0 l).countP (fun i => decide (i ≤ k + 1)) - 1 := by
        have hpos := countP_le_pos l c0 h0 hi k
        have hstep := countP_le_succ l k nxt hnxt
        simp only [streamState]
        by_cases hin : ModernJamo.is_initial_consonant nxt <;>
          simp [hin] at hstep ⊢ <;> omega
      rw [harith]
      rfl

lemma advance_next_none_of_ge (l : List Nat) (c0 : Nat) (h0 : l[0]? = some c0)
    (hi : ModernJamo.is_initial_consonant c0 = true) (k : Nat) (hk : l.length ≤ k) :
    (JamoStream.advance k (JamoStream.from_jamos l)).next = none := by
  have hlen : 0 < l.length := by
    cases l with
    | nil => simp at h0
    | cons c t => simp
  obtain ⟨m, hm⟩ : ∃ m, l.length = m + 1 := ⟨l.length - 1, by omega⟩
  -- the state after `length` steps has index = length, so `next` is `none`
  have hfix : (JamoStream.advance l.length (JamoStream.from_jamos l)).next = none := by
    have hm' : m < l.length := by omega
    rw [hm, advance_succ, advance_eq_streamState l c0 h0 hi m hm']
    have hnone : l[m + 1]? = none := List.getElem?_eq_none (by omega)
    cases hnext : (streamState l m).next with
    | none => simp [hnext]
    | some p =>
      rcases p with ⟨it, s1⟩
      -- compute the successor state: index becomes m + 1 = length
      have hgetm : l[m]? = some (l.get ⟨m, hm'⟩) := by
        rw [List.getElem?_eq_getElem hm', List.get_eq_getElem]
      have : s1.index = m + 1 ∧ s1.jamos = l := by
        unfold JamoStream.next at hnext
        rw [show (streamState l m).jamos = l from rfl,
          show (streamState l m).index = m from rfl] at hnext
        rw [hgetm] at hnext
        rw [hnone] at hnext
        replace hnext := Option.some.inj hnext
        simp only [Prod.mk.injEq] at hnext
        obtain ⟨h1, h2⟩ := hnext
        rw [← h2]
        exact ⟨rfl, rfl⟩
      simp only [hnext]
      unfold JamoStream.next
      rw [this.2, this.1]
      rw [List.getElem?_eq_none (by omega)]
  -- beyond `length` the stream is stuck
  obtain ⟨j, rfl⟩ : ∃ j, k = l.length + j := ⟨k - l.length, by omega⟩
  have hadd : ∀ (a b : Nat) (s : JamoStream),
      JamoStream.advance (a + b) s = JamoStream.advance b (JamoStream.advance a s) := by
    intro a
    induction a with
    | zero => intro b s; simp [JamoStream.advance]
    | succ a iha =>
      intro b s
      cases h : s.next with
      | none =>
        have h1 : JamoStream.advance (a + 1 + b) s = s := advance_of_next_none s h _
        have h2 : JamoStream.advance (a + 1) s = s := advance_of_next_none s h _
        rw [h1, h2, advance_of_next_none s h b]
      | some p =>
        rcases p with ⟨it, s1⟩
        have h1 : JamoStream.advance (a + 1 + b) s = JamoStream.advance (a + b) s1 := by
          have : a + 1 + b = (a + b) + 1 := by omega
          rw [this]
          simp [JamoStream.advance, h]
        have h2 : JamoStream.advance (a + 1) s = JamoStream.advance a s1 := by
          simp [JamoStream.advance, h]
        rw [h1, h2, iha b s1]
  rw [hadd, advance_of_next_none _ hfix j]
  exact hfix

lemma get_syllable_at_spec (l : List Nat) (c0 : Nat) (h0 : l[0]? = some c0)
    (hi : ModernJamo.is_initial_consonant c0 = true) (k : Nat) :
    JamoStream.get_syllable_at (streamState l k) ((streamState l k).syllable_index + 1)
      = nextSyllableSpec l k := by
  have hpos := countP_le_pos l c0 h0 hi k
  have hc1 : (streamState l k).syllable_index + 1
      = (syllableIndicesFrom 0 l).countP (fun i => decide (i ≤ k)) := by
    simp only [streamState]
    omega
  have hdrop := drop_countP_of_pairwise (syllableIndicesFrom 0 l) k (syllableIndices_pairwise l)
  have e0 : (syllableIndicesFrom 0 l)[(streamState l k).syllable_index + 1]?
      = ((syllableIndicesFrom 0 l).filter (fun i => decide (k < i)))[0]? := by
    rw [hc1, ← hdrop, List.getElem?_drop, Nat.add_zero]
  have e1 : (syllableIndicesFrom 0 l)[(streamState l k).syllable_index + 1 + 1]?
      = ((syllableIndicesFrom 0 l).filter (fun i => decide (k < i)))[1]? := by
    rw [hc1, ← hdrop, List.getElem?_drop]
  unfold JamoStream.get_syllable_at nextSyllableSpec
  rw [show (streamState l k).syllable_indices = syllableIndicesFrom 0 l from rfl]
  rw [show (streamState l k).jamos = l from rfl]
  rcases hF : (syllableIndicesFrom 0 l).filter (fun i => decide (k < i)) with _ | ⟨a, F'⟩
  · rw [hF] at e0
    simp [e0]
  · rw [hF] at e0 e1
    cases F' with
    | nil => simp [e0, e1]
    | cons b F'' => simp [e0, e1]

lemma streamState_next_none_eq (l : List Nat) (k : Nat) (hk : k < l.length)
    (hnxt : l[k + 1]? = none) :
    (streamState l k).next = some
      (⟨l.get ⟨k, hk⟩, if k = 0 then none else l[k - 1]?, none, none⟩,
       { jamos := l
         syllable_indices := syllableIndicesFrom 0 l
         index := k + 1
         syllable_index := (streamState l k).syllable_index + 1 }) := by
  have hget : l[k]? = some (l.get ⟨k, hk⟩) := by
    rw [List.getElem?_eq_getElem hk, List.get_eq_getElem]
  simp [JamoStream.next, streamState, hget, hnxt]

/-! ### The claim about the lookahead stream: C9 -/

/-- C9 counterexample: on the decomposed jamos of 바비보, seeking to
syllable 2 moves the cursor to jamo index 4 (the last syllable), but
`seek_to_syllable` does not update the internal syllable counter, so
the next yielded item reports `next_syllable` = 비 (U+BE44) — a
syllable that is not after the cursor — while the composition of the
slice between the next syllable-start index after the cursor and the
one after it is none (there is no syllable start after index 4). -/
theorem claim_c9_counterexample :
    ((JamoStream.from_jamos
        [0x1107, 0x1161, 0x1107, 0x1175, 0x1107, 0x1169]).seek_to_syllable 2).index = 4 ∧
    (match ((JamoStream.from_jamos
        [0x1107, 0x1161, 0x1107, 0x1175, 0x1107, 0x1169]).seek_to_syllable 2).next with
     | some (item, _) => item.next_syllable
     | none => none) = some 0xBE44 ∧
    nextSyllableSpec [0x1107, 0x1161, 0x1107, 0x1175, 0x1107, 0x1169] 4 = none := by
  refine ⟨by decide, by decide, by decide⟩

/-- C9 as amended: `seek_to_syllable` with an index at or past the
number of syllable starts is a silent no-op on any stream state; and on
a stream that is freshly constructed from a sequence starting with an
initial consonant and then only iterated (no seek), every yielded item
has `next_syllable` equal to the composition of the jamo slice between
the first syllable-start index after the current position and the one
after it (or the sequence end), or none when no syllable start follows.
After a `seek_to_syllable` the internal syllable counter is stale and
`next_syllable` need not correspond to the cursor. -/
theorem claim_c9_amended_stream :
    (∀ (s : JamoStream) (n : Nat), s.syllable_indices.length ≤ n →
        s.seek_to_syllable n = s) ∧
    (∀ (l : List Nat) (c0 : Nat), l[0]? = some c0 →
      ModernJamo.is_initial_consonant c0 = true →
      ∀ (k : Nat) (item : JamoInStream) (s' : JamoStream),
        (JamoStream.advance k (JamoStream.from_jamos l)).next = some (item, s') →
        item.next_syllable = nextSyllableSpec l k) := by
  constructor
  · intro s n h
    unfold JamoStream.seek_to_syllable
    rw [List.getElem?_eq_none h]
  · intro l c0 h0 hi k item s' h
    by_cases hk : k < l.length
    · rw [advance_eq_streamState l c0 h0 hi k hk] at h
      cases hnxt : l[k + 1]? with
      | none =>
        rw [streamState_next_none_eq l k hk hnxt] at h
        replace h := Option.some.inj h
        simp only [Prod.mk.injEq] at h
        obtain ⟨h1, h2⟩ := h
        rw [← h1]
        have hf : (syllableIndicesFrom 0 l).filter (fun i => decide (k < i)) = [] := by
          rw [List.filter_eq_nil_iff]
          intro x hx
          have hx1 := syllableIndices_lt_length l x hx
          have hx2 : l.length ≤ k + 1 := List.getElem?_eq_none_iff.mp hnxt
          simp only [decide_eq_true_eq]
          omega
        simp [nextSyllableSpec, hf]
      | some nxt =>
        rw [streamState_next_eq l k hk nxt hnxt] at h
        replace h := Option.some.inj h
        simp only [Prod.mk.injEq] at h
        obtain ⟨h1, h2⟩ := h
        rw [← h1]
        exact get_syllable_at_spec l c0 h0 hi k
    · rw [advance_next_none_of_ge l c0 h0 hi k (by omega)] at h
      exact Option.noConfusion h

/-- C9 amended witness: the seek no-op on a one-syllable stream, and the
`next_syllable` specification for the first item yielded on the
decomposed jamos of 바. -/
theorem claim_c9_amended_stream_witness :
    (JamoStream.from_jamos [0x1107]).seek_to_syllable 1 = JamoStream.from_jamos [0x1107] ∧
    (⟨(0x1107 : Nat), none, some 0x1161, none⟩ : JamoInStream).next_syllable
      = nextSyllableSpec [0x1107, 0x1161] 0 :=
  ⟨claim_c9_amended_stream.1 (JamoStream.from_jamos [0x1107]) 1 (by decide),
   claim_c9_amended_stream.2 [0x1107, 0x1161] 0x1107 (by decide) (by decide) 0
     ⟨0x1107, none, some 0x1161, none⟩
     ⟨[0x1107, 0x1161], [0], 1, 0⟩ (by decide)⟩


end HangulFun
